import Mathlib

/-! Askify quiz client (`static/js/script.js`): quiz session state machine

A shallow embedding of the client-side controller: the answer ledger kept by
`displayQuiz`, the completion summary, the celebration tiers, and the two
globals `currentUser` and `currentQuizId` together with the handlers that
read and write them.

Conventions of the embedding.

* JavaScript `null` is `none`; the two ledger marks `'correct'` and `'wrong'`
  are the constructors of `Mark`.
* A click is a pair `(q, i)`: the `i`-th option button of question `q`.  A
  button exists only where `displayQuiz` rendered one; a click on a button
  that does not exist reaches no handler and changes nothing.
* The handlers are modelled for the buttons `displayQuiz` writes, one per
  option of a question that has options.  Markup in a text can take a written
  button out of the document; a click on a button that is not there does not
  occur.
* A string is well-formed text, a Lean `String`; where the code counts or
  cuts characters it is taken as UTF-16 code units (`jsString`).
* The cards are written as one HTML string and read back from the document
  the browser parses from it.  The parse is not code of the repository.  The
  two facts about it the click handler depends on are the fields of `Browser`,
  a parameter of the session functions: the value `getAttribute('data-opt')`
  returns for a written attribute text, and whether the element
  `feedback-index` is found.  Option and question texts are interpolated
  unescaped, so markup in them can remove that element from the document.
-/

namespace Askify

/-! ## Data model -/

/-- One ledger entry that is not `null`: the string `'correct'` or `'wrong'`. -/
inductive Mark where
  | correct
  | wrong
  deriving DecidableEq, Repr

/-- One element of the generated quiz array. `options` may be absent. -/
structure Question where
  question : String
  options : Option (List String)
  correctAnswer : String
  explanation : Option String
  deriving DecidableEq, Repr

/-- The mutable variables closed over by the click handlers of one
`displayQuiz` call: the array `answers` and, per question, the flag
`answered`. -/
structure QuizState where
  answers : List (Option Mark)
  answered : List Bool
  deriving DecidableEq, Repr

/-! ## Rendering of the option buttons -/

/-- The call `s.replace(/c/g, r)` for a one-character pattern `c`. -/
def replaceAll (c : Char) (r : String) (s : String) : String :=
  String.join (s.toList.map fun ch => if ch = c then r else String.singleton ch)

/-- The text written between the double quotes of `data-opt`:
`option.replace(/&/g, '&amp;').replace(/'/g, '\'').replace(/\"/g, '&quot;')`.
The middle replacement puts an apostrophe for an apostrophe. -/
def escapeOpt (option : String) : String :=
  replaceAll (Char.ofNat 34) "&quot;"
    (replaceAll (Char.ofNat 39) (String.singleton (Char.ofNat 39))
      (replaceAll (Char.ofNat 38) "&amp;" option))

/-- The HTML parser's preprocessing of its input: a carriage return followed
by a line feed is dropped, any other carriage return becomes a line feed. -/
def normalizeNewlines : List Char → List Char
  | [] => []
  | c :: rest =>
    if c = Char.ofNat 13 then
      if rest.head? = some (Char.ofNat 10) then normalizeNewlines rest
      else Char.ofNat 10 :: normalizeNewlines rest
    else c :: normalizeNewlines rest

/-- The HTML parser's double-quoted attribute value state on a text written by
`escapeOpt`: the references `&amp;` and `&quot;` are decoded and U+0000 is
replaced by U+FFFD.  In such a text every ampersand starts one of these two
references, so no other reference is read here. -/
def htmlDecodeChars : List Char → List Char
  | [] => []
  | '&' :: 'a' :: 'm' :: 'p' :: ';' :: rest => '&' :: htmlDecodeChars rest
  | '&' :: 'q' :: 'u' :: 'o' :: 't' :: ';' :: rest => Char.ofNat 34 :: htmlDecodeChars rest
  | c :: rest => (if c = Char.ofNat 0 then Char.ofNat 65533 else c) :: htmlDecodeChars rest

/-- The value `getAttribute('data-opt')` returns for the attribute text `s`
written by `escapeOpt`, in a browser that follows the HTML parsing rules. -/
def htmlAttrDecode (s : String) : String :=
  String.mk (htmlDecodeChars (normalizeNewlines s.toList))

/-- The two facts about the parsed document that the click handler reads.
`getAttr s` is the value of `getAttribute('data-opt')` on a button whose
attribute was written as the text `s`; `hasFeedback quiz index` tells whether
`document.getElementById('feedback-' + index)` found an element after
`displayQuiz(quiz)`. -/
structure Browser where
  getAttr : String → String
  hasFeedback : List Question → Nat → Bool

/-- The document of a quiz whose texts hold no markup: every card keeps its
feedback element, and attributes are read back by the parsing rules. -/
def plainBrowser : Browser :=
  { getAttr := htmlAttrDecode
    hasFeedback := fun _ _ => true }

/-- The option buttons rendered for a question: none when `options` is absent
or empty (`item.options && item.options.length > 0`). -/
def buttonsOf (item : Question) : List String :=
  match item.options with
  | none => []
  | some opts => opts

/-! ## `displayQuiz` and its click handler -/

/-- The state right after `displayQuiz(quiz)`:
`new Array(quiz.length).fill(null)` and every `answered` flag false. -/
def displayQuiz (quiz : List Question) : QuizState :=
  { answers := List.replicate quiz.length none
    answered := List.replicate quiz.length false }

/-- The test `answers.every(a => a !== null)`. -/
def allAnswered (answers : List (Option Mark)) : Bool :=
  answers.all fun a => a != none

/-- The count `answers.filter(a => a === 'correct').length`. -/
def correctCount (answers : List (Option Mark)) : Nat :=
  (answers.filter fun a => a == some Mark.correct).length

/-- The mark the handler writes: `selected === correct`. -/
def markOf (getAttr : String → String) (item : Question) (option : String) : Mark :=
  if getAttr (escapeOpt option) = item.correctAnswer then Mark.correct else Mark.wrong

/-- The click handler of button `i` of question `q`.  The second component is
the call `showResultSummary(correctCount, answers.length)` when it is made.
The handler sets `answered = true` first.  The assignment
`feedbackDiv.innerHTML = ...` comes before `answers[index] = ...`; when
`feedbackDiv` is `null` it throws a `TypeError`, and the handler ends there
with the flag set, the ledger untouched and no completion check. -/
def clickOption (dom : Browser) (quiz : List Question) (st : QuizState)
    (q i : Nat) : QuizState × Option (Nat × Nat) :=
  match quiz.get? q with
  | none => (st, none)
  | some item =>
    match (buttonsOf item).get? i with
    | none => (st, none)
    | some option =>
      if st.answered.getD q false then (st, none)
      else if dom.hasFeedback quiz q then
        let answers := st.answers.set q (some (markOf dom.getAttr item option))
        let st1 : QuizState := { answers := answers, answered := st.answered.set q true }
        if allAnswered answers then (st1, some (correctCount answers, answers.length))
        else (st1, none)
      else ({ answers := st.answers, answered := st.answered.set q true }, none)

/-- Whether the handler of button `i` of question `q` ends in the `TypeError`
of `feedbackDiv.innerHTML = ...` on a `null` `feedbackDiv`. -/
def clickThrows (dom : Browser) (quiz : List Question) (st : QuizState)
    (q i : Nat) : Bool :=
  match quiz.get? q with
  | none => false
  | some item =>
    match (buttonsOf item).get? i with
    | none => false
    | some _ => !st.answered.getD q false && !dom.hasFeedback quiz q

/-- The state after a sequence of clicks. -/
def runClicks (dom : Browser) (quiz : List Question) :
    QuizState → List (Nat × Nat) → QuizState
  | st, [] => st
  | st, c :: cs => runClicks dom quiz (clickOption dom quiz st c.1 c.2).1 cs

/-- The calls of `showResultSummary` made by a sequence of clicks, one entry
per click (`none` when the click made no call). -/
def summaryCalls (dom : Browser) (quiz : List Question) :
    QuizState → List (Nat × Nat) → List (Option (Nat × Nat))
  | _, [] => []
  | st, c :: cs =>
    (clickOption dom quiz st c.1 c.2).2 ::
      summaryCalls dom quiz (clickOption dom quiz st c.1 c.2).1 cs

/-! ## Numbers of the celebration screen

`score` and `total` reach `showCelebrationScreen` as JavaScript numbers, that
is IEEE 754 binary64 values, and `(score / total) * 100` rounds twice.  The
values met here are non-negative; a finite one is carried as the rational it
denotes.  `roundDouble` is round-to-nearest, ties-to-even, at 53 significant
bits; it is the binary64 rounding on the normal range, which covers every
quotient and product of integers below `2 ^ 53` formed here. -/

/-- Nearest integer, a tie going to the even neighbour. -/
def roundNearestEven (q : ℚ) : ℤ :=
  if q - ⌊q⌋ < 1 / 2 then ⌊q⌋
  else if 1 / 2 < q - ⌊q⌋ then ⌊q⌋ + 1
  else if ⌊q⌋ % 2 = 0 then ⌊q⌋ else ⌊q⌋ + 1

/-- Binary logarithm of a positive natural, rounded down, by halving. -/
def log2Fuel : Nat → Nat → Nat
  | 0, _ => 0
  | fuel + 1, n => if n < 2 then 0 else log2Fuel fuel (n / 2) + 1

/-- Position of the leading bit of `n`. -/
def ilog2 (n : Nat) : Nat := log2Fuel n n

/-- The exponent `e` with `2 ^ e ≤ x < 2 ^ (e + 1)`, for positive `x`. -/
def binade (x : ℚ) : ℤ :=
  if (2 : ℚ) ^ ((ilog2 x.num.toNat : ℤ) - (ilog2 x.den : ℤ)) ≤ x
  then (ilog2 x.num.toNat : ℤ) - (ilog2 x.den : ℤ)
  else (ilog2 x.num.toNat : ℤ) - (ilog2 x.den : ℤ) - 1

/-- The binary64 value nearest to a non-negative real `x`. -/
def roundDouble (x : ℚ) : ℚ :=
  if x ≤ 0 then 0
  else roundNearestEven (x / 2 ^ (binade x - 52)) * 2 ^ (binade x - 52)

/-- A JavaScript number as the celebration screen can compute one. -/
inductive JsNum where
  | finite (v : ℚ)
  | infinity
  | nan
  deriving DecidableEq

/-- The comparison `p >= bound` for a finite `bound`. -/
def JsNum.ge (p : JsNum) (bound : ℚ) : Bool :=
  match p with
  | JsNum.finite v => decide (bound ≤ v)
  | JsNum.infinity => true
  | JsNum.nan => false

/-- The value `(score / total) * 100`. -/
def percentage (score total : Nat) : JsNum :=
  if total = 0 then (if score = 0 then JsNum.nan else JsNum.infinity)
  else JsNum.finite (roundDouble (roundDouble ((score : ℚ) / (total : ℚ)) * 100))

/-- What the celebration screen shows. -/
structure Celebration where
  score : Nat
  message : String
  quote : String
  deriving DecidableEq, Repr

/-- The function `showCelebrationScreen(score, total)`: the score text and
the message and quote of the tier. -/
def showCelebrationScreen (score total : Nat) : Celebration :=
  if (percentage score total).ge 90 then
    { score := score
      message := "Outstanding! You absolutely crushed it!"
      quote := "\"The expert in anything was once a beginner.\" - Helen Hayes" }
  else if (percentage score total).ge 80 then
    { score := score
      message := "Excellent work! You really know your stuff!"
      quote := "\"Success is the sum of small efforts, repeated day in and day out.\" - Robert Collier" }
  else if (percentage score total).ge 70 then
    { score := score
      message := "Great job! You have a solid understanding!"
      quote := "\"The beautiful thing about learning is that no one can take it away from you.\" - B.B. King" }
  else if (percentage score total).ge 60 then
    { score := score
      message := "Good effort! Keep learning and improving!"
      quote := "\"It does not matter how slowly you go as long as you do not stop.\" - Confucius" }
  else
    { score := score
      message := "Nice try! Every attempt is a step forward!"
      quote := "\"Failure is simply the opportunity to begin again, this time more intelligently.\" - Henry Ford" }

/-! ## Application state

The two globals, what the page shows, and a log of the calls and requests
made.  A handler that awaits a response takes that response as an argument;
the part of a handler after an `await` whose result nothing else waits for is
a function of its own (`refreshOnProfile`, `refreshOnHistory`,
`attemptSettled`). -/

/-- The identity object kept in `currentUser`. -/
structure User where
  id : Nat
  name : String
  email : String
  deriving DecidableEq, Repr

/-- One entry of the array returned by `/api/quiz-history`. -/
structure HistoryEntry where
  quiz_id : Nat
  prompt : String
  is_complete : Bool
  score : Nat
  total_questions : Nat
  deriving DecidableEq, Repr

/-- The UTF-16 code units of a character: one unit in the Basic Multilingual
Plane, a surrogate pair above it. -/
def utf16Units (c : Char) : List Nat :=
  if c.toNat < 65536 then [c.toNat]
  else [55296 + (c.toNat - 65536) / 1024, 56320 + (c.toNat - 65536) % 1024]

/-- A string as JavaScript holds it: its sequence of UTF-16 code units, which
`length` counts and `slice` cuts. -/
def jsString (s : String) : List Nat :=
  (s.toList.map utf16Units).flatten

/-- One row of the history list: the string written between the tags of its
`history-title` element, in code units, and the quiz its click loads.  The row
is built through `innerHTML`, so what it shows is that string parsed as HTML
(`HistoryItem.shownTitle`). -/
structure HistoryItem where
  title : List Nat
  quizId : Nat
  deriving DecidableEq, Repr

/-- Content of `#quizHistoryList`. -/
inductive HistoryView where
  | initial
  | signInPrompt
  | emptyHistory
  | items (rows : List HistoryItem)
  deriving DecidableEq, Repr

/-- A child of `#quizContainer`. -/
inductive Block where
  | questionCard (index : Nat) (item : Question)
  | reviewCard (index : Nat) (item : Question) (userAnswer : Option String)
  | summaryScore (correct total : Nat)
  | reviewScore (score total : Nat)
  deriving DecidableEq, Repr

/-- A network request, by endpoint.  The `prompt` of the save request is the
result of `topic.substring(0, 200)`, a sequence of UTF-16 code units. -/
inductive Request where
  | userProfile
  | quizHistory
  | login
  | signup
  | logout
  | generateQuiz (topic : String)
  | saveQuiz (prompt : List Nat) (questions : List Question)
  | saveQuizAttempt (quizId score : Nat)
  | quizDetail (id : Nat)
  deriving DecidableEq, Repr

/-- An observable step of the program.  `refresh identity` is the entry into
`refreshSessionAndHistory`, with `currentUser` as it stands at that moment. -/
inductive Effect where
  | request (r : Request)
  | refresh (identity : Option User)
  | displayQuiz (quiz : List Question)
  | showResultSummary (correct total : Nat)
  | showCelebrationScreen (correct total : Nat)
  | sendQuizAttempt (correct total : Nat)
  | alert (message : String)
  | consoleError (message : String)
  deriving DecidableEq, Repr

/-- The state of the page. `session` is the live closure of the last
`displayQuiz` while its buttons are in the document. -/
structure App where
  currentUser : Option User
  currentQuizId : Option Nat
  session : Option (List Question × QuizState)
  container : List Block
  resultsVisible : Bool
  celebration : Option Celebration
  loggedInUI : Bool
  authModalOpen : Bool
  authError : Option String
  history : HistoryView
  effects : List Effect
  deriving DecidableEq

/-- Append to the log. -/
def App.emit (s : App) (e : Effect) : App :=
  { s with effects := s.effects ++ [e] }

/-- Outcome of the login or signup request. `failed` is a rejected fetch or a
body that is not JSON. -/
inductive AuthResponse where
  | failed (message : String)
  | rejected (err : Option String)
  | accepted (user : User)
  deriving DecidableEq, Repr

/-- Outcome of a request whose body is not read. -/
inductive Settled where
  | resolved (ok : Bool)
  | failed
  deriving DecidableEq, Repr

/-- Outcome of `/api/user-profile`. -/
inductive ProfileResponse where
  | failed
  | unauthorized
  | notOk
  | ok (userData : User)
  deriving DecidableEq, Repr

/-- Outcome of `/api/quiz-history`; the body is `none` when it is not an
array. -/
inductive HistoryResponse where
  | failed
  | notOk
  | ok (history : Option (List HistoryEntry))
  deriving DecidableEq, Repr

/-- Outcome of `/api/generate-quiz`. -/
inductive GenerateResponse where
  | failed (message : String)
  | ok (quiz : List Question)
  deriving DecidableEq, Repr

/-- Outcome of `/api/save-quiz`; `quiz_id` is `none` when the body lacks it. -/
inductive SaveResponse where
  | failed
  | notOk
  | ok (quiz_id : Option Nat)
  deriving DecidableEq, Repr

/-! ## Session refresh and authentication -/

/-- The function `isUserLoggedIn()`: `currentUser !== null`. -/
def isUserLoggedIn (s : App) : Bool :=
  s.currentUser != none

/-- The function `showUserLoggedIn(loggedIn)`: user controls are shown when
`loggedIn && currentUser`, guest controls otherwise. -/
def showUserLoggedIn (s : App) (loggedIn : Bool) : App :=
  { s with loggedInUI := loggedIn && s.currentUser != none }

/-- The expression `p.length > 60 ? p.slice(0, 57) + '...' : p` on the code
units of `p`. -/
def sliceTitle (units : List Nat) : List Nat :=
  if units.length > 60 then units.take 57 ++ jsString "..." else units

/-- The title of a history row:
`q.prompt.length > 60 ? q.prompt.slice(0, 57) + '...' : q.prompt`. -/
def historyTitle (prompt : String) : List Nat :=
  sliceTitle (jsString prompt)

/-- The text the HTML parser builds from a string written as the content of
an element, on the strings where the parsing rules do little: `&amp;` stands
for an ampersand and every other code unit for itself.  The result is `none`
outside that fragment: a `<` (a tag may open), an ampersand that does not
begin `&amp;` (another reference may), a carriage return or U+0000 (the parser
rewrites them). -/
def htmlText : List Nat → Option (List Nat)
  | [] => some []
  | c :: rest =>
    if c = 38 then
      match rest with
      | 97 :: 109 :: 112 :: 59 :: rest2 => (htmlText rest2).map fun t => 38 :: t
      | _ => none
    else if c = 60 ∨ c = 13 ∨ c = 0 then none
    else (htmlText rest).map fun t => c :: t

/-- The title a history row shows: the text of its `history-title` element
after the browser has parsed the written string. -/
def HistoryItem.shownTitle (row : HistoryItem) : Option (List Nat) :=
  htmlText row.title

/-- The function `renderQuizHistory(list)`. -/
def renderQuizHistory (s : App) (list : Option (List HistoryEntry)) : App :=
  match list with
  | none => { s with history := HistoryView.emptyHistory }
  | some [] => { s with history := HistoryView.emptyHistory }
  | some (e :: es) =>
    let rows : List HistoryItem :=
      (e :: es).map fun q => { title := historyTitle q.prompt, quizId := q.quiz_id }
    { s with history := HistoryView.items rows }

/-- The `catch` branch of `refreshSessionAndHistory`. -/
def refreshCatch (s : App) : App :=
  { showUserLoggedIn s false with history := HistoryView.signInPrompt }

/-- The call `refreshSessionAndHistory()` up to its first `await`: the
profile request is sent. -/
def refreshStart (s : App) : App :=
  (s.emit (Effect.refresh s.currentUser)).emit (Effect.request Request.userProfile)

/-- The function `refreshSessionAndHistory` from the profile response to the
next `await`. -/
def refreshOnProfile (s : App) (profile : ProfileResponse) : App :=
  match profile with
  | ProfileResponse.ok userData =>
    (showUserLoggedIn { s with currentUser := some userData } true).emit
      (Effect.request Request.quizHistory)
  | ProfileResponse.unauthorized => refreshCatch s
  | ProfileResponse.notOk => refreshCatch s
  | ProfileResponse.failed => refreshCatch s

/-- The function `refreshSessionAndHistory` from the history response on. -/
def refreshOnHistory (s : App) (history : HistoryResponse) : App :=
  match history with
  | HistoryResponse.ok list => renderQuizHistory s list
  | HistoryResponse.notOk => s
  | HistoryResponse.failed => refreshCatch s

/-- The function `refreshSessionAndHistory()` run to its end with the two
responses it receives; the history response is read only after a profile
response that was accepted. -/
def refreshSessionAndHistory (s : App) (profile : ProfileResponse)
    (history : HistoryResponse) : App :=
  match profile with
  | ProfileResponse.ok userData =>
    refreshOnHistory (refreshOnProfile (refreshStart s) (ProfileResponse.ok userData)) history
  | other => refreshOnProfile (refreshStart s) other

/-- The expression `text || fallback` for strings. -/
def orDefault (text fallback : String) : String :=
  if text = "" then fallback else text

/-- The submit handler of the authentication form, to the point where it
awaits the refresh it started. `loginMode` selects the endpoint. -/
def authSubmit (s : App) (loginMode : Bool) (resp : AuthResponse) : App :=
  let s1 := ({ s with authError := none }).emit
    (Effect.request (if loginMode then Request.login else Request.signup))
  match resp with
  | AuthResponse.accepted user =>
    refreshStart { s1 with currentUser := some user, authModalOpen := false }
  | AuthResponse.rejected err =>
    { s1 with authError := some (orDefault (err.getD "") "Failed to authenticate") }
  | AuthResponse.failed message =>
    { s1 with authError := some (orDefault message "Authentication failed") }

/-- The function `logoutUser()`, to the point where it awaits the refresh it
started. The response status is not read. -/
def logoutUser (s : App) (resp : Settled) : App :=
  let s1 := s.emit (Effect.request Request.logout)
  match resp with
  | Settled.resolved _ => refreshStart { s1 with currentUser := none }
  | Settled.failed => s1.emit (Effect.consoleError "Logout failed:")

/-! ## Quiz handlers -/

/-- Whether a block is the element `#quiz-summary-score`. -/
def Block.isSummary : Block → Bool
  | Block.summaryScore _ _ => true
  | _ => false

/-- The steps `getElementById('quiz-summary-score')` and `remove()`: the
first such element leaves the container. -/
def removeSummary : List Block → List Block
  | [] => []
  | b :: bs => if b.isSummary then bs else b :: removeSummary bs

/-- The function `sendQuizAttempt(correct, total)` up to its `await`: nothing
is sent when `currentQuizId` is falsy. -/
def sendQuizAttempt (s : App) (correct total : Nat) : App :=
  let s1 := s.emit (Effect.sendQuizAttempt correct total)
  match s1.currentQuizId with
  | none => s1
  | some 0 => s1
  | some (id + 1) => s1.emit (Effect.request (Request.saveQuizAttempt (id + 1) correct))

/-- The function `sendQuizAttempt` after its request settled: a refresh is
started when the fetch resolved, whatever the status. -/
def attemptSettled (s : App) (resp : Settled) : App :=
  match resp with
  | Settled.resolved _ => refreshStart s
  | Settled.failed => s.emit (Effect.consoleError "Failed to save quiz attempt:")

/-- The function `showResultSummary(correct, total)`. -/
def showResultSummary (s : App) (correct total : Nat) : App :=
  let s1 := s.emit (Effect.showResultSummary correct total)
  let s2 := { s1 with
    container := removeSummary s1.container ++ [Block.summaryScore correct total] }
  let s3 := { s2.emit (Effect.showCelebrationScreen correct total) with
    celebration := some (showCelebrationScreen correct total) }
  sendQuizAttempt s3 correct total

/-- The function `displayQuiz(quiz)` on the page: the container is emptied,
one card per question is appended, the handlers start from a fresh ledger. -/
def App.displayQuiz (s : App) (quiz : List Question) : App :=
  { s.emit (Effect.displayQuiz quiz) with
    session := some (quiz, Askify.displayQuiz quiz)
    container := quiz.enum.map fun p => Block.questionCard p.1 p.2
    resultsVisible := true }

/-- A click on option button `i` of question `q` of the page.  A handler that
throws has called nothing, so it adds nothing to the log. -/
def App.clickOption (dom : Browser) (s : App) (q i : Nat) : App :=
  match s.session with
  | none => s
  | some (quiz, st) =>
    let s1 := { s with session := some (quiz, (Askify.clickOption dom quiz st q i).1) }
    match (Askify.clickOption dom quiz st q i).2 with
    | none => s1
    | some (correct, total) => showResultSummary s1 correct total

/-- The click handler of the generate button. `topic` is
`uploadedText || topicInput.value.trim()`; `save` is read only when the save
request is sent.  The prompt saved is `topic.substring(0, 200)`: the first 200
UTF-16 code units of the topic. -/
def generateClick (s : App) (topic : String) (gen : GenerateResponse)
    (save : SaveResponse) : App :=
  if topic = "" then
    s.emit (Effect.alert "Please enter a topic or upload a file to create a quiz.")
  else
    let s1 := ({ s with resultsVisible := false }).emit
      (Effect.request (Request.generateQuiz topic))
    match gen with
    | GenerateResponse.failed message =>
      s1.emit (Effect.alert ("Error generating quiz: " ++ message))
    | GenerateResponse.ok quiz =>
      if isUserLoggedIn s1 then
        let s2 := s1.emit (Effect.request (Request.saveQuiz ((jsString topic).take 200) quiz))
        match save with
        | SaveResponse.ok quiz_id =>
          (refreshStart { s2 with currentQuizId := quiz_id }).displayQuiz quiz
        | SaveResponse.notOk => s2.displayQuiz quiz
        | SaveResponse.failed =>
          (s2.emit (Effect.consoleError "Failed to save quiz:")).displayQuiz quiz
      else s1.displayQuiz quiz

/-- The body of `/api/quiz-detail`. -/
structure QuizDetail where
  questions : List Question
  user_answers : Option (List (Option String))
  is_complete : Bool
  score : Nat
  quiz_id : Option Nat
  deriving DecidableEq, Repr

/-- Outcome of `/api/quiz-detail`. -/
inductive DetailResponse where
  | failed (message : String)
  | notOk
  | ok (detail : QuizDetail)
  deriving DecidableEq, Repr

/-- The function `displayQuizWithAnswers(questions, userAnswers, isComplete,
score, quizId)`: cards without buttons, and the stored score when complete. -/
def displayQuizWithAnswers (s : App) (questions : List Question)
    (userAnswers : Option (List (Option String))) (isComplete : Bool) (score : Nat)
    (quizId : Option Nat) : App :=
  let cards := questions.enum.map fun p =>
    Block.reviewCard p.1 p.2 ((userAnswers.bind fun l => l.get? p.1).join)
  { s with
    currentQuizId := quizId
    session := none
    container := cards ++ (if isComplete then [Block.reviewScore score questions.length] else [])
    resultsVisible := true }

/-- The function `loadPastQuiz(quizID)`. -/
def loadPastQuiz (s : App) (quizID : Nat) (resp : DetailResponse) : App :=
  let s1 := s.emit (Effect.request (Request.quizDetail quizID))
  match resp with
  | DetailResponse.ok detail =>
    displayQuizWithAnswers s1 detail.questions detail.user_answers detail.is_complete
      detail.score detail.quiz_id
  | DetailResponse.notOk =>
    s1.emit (Effect.alert "Could not load quiz detail: Failed to load quiz")
  | DetailResponse.failed message =>
    s1.emit (Effect.alert ("Could not load quiz detail: " ++ message))

/-- The function `hideCelebrationScreen()`. -/
def hideCelebrationScreen (s : App) : App :=
  { s with celebration := none }

/-- The function `resetQuizInterface()`. -/
def resetQuizInterface (s : App) : App :=
  { s with container := [], session := none, resultsVisible := false, currentQuizId := none }

/-- The click handler of the new-quiz button of the celebration screen. -/
def newQuizClick (s : App) : App :=
  resetQuizInterface (hideCelebrationScreen s)

/-- The page once the script has run and `DOMContentLoaded` has fired: both
globals `null`, the first refresh under way. -/
def App.init : App :=
  refreshStart
    { currentUser := none, currentQuizId := none, session := none, container := [],
      resultsVisible := false, celebration := none, loggedInUI := false,
      authModalOpen := false, authError := none, history := HistoryView.initial,
      effects := [] }

/-! ## Clicks on the page and the export

The copy and the download handler build the same string `quizText` from the
`div` children of `#quizContainer`.  The text `innerText` gives for a question
card is laid out by the browser; it is the parameter `cardText`, a function of
the card and of the ledger entry that decides which feedback the card shows.
The two score blocks hold one line of text each. -/

/-- The page after a sequence of option clicks. -/
def App.runClicks (dom : Browser) : App → List (Nat × Nat) → App
  | s, [] => s
  | s, c :: cs => App.runClicks dom (s.clickOption dom c.1 c.2) cs

/-- The array `answers` of the live session, empty when there is none. -/
def App.ledger (s : App) : List (Option Mark) :=
  match s.session with
  | none => []
  | some (_, st) => st.answers

/-- The text of `#quiz-summary-score`. -/
def summaryText (correct total : Nat) : String :=
  "You got " ++ toString correct ++ " out of " ++ toString total ++ " correct!"

/-- The text of the score block of a stored quiz. -/
def reviewScoreText (score total : Nat) : String :=
  "Score: " ++ toString score ++ " out of " ++ toString total ++ " correct!"

/-- The value `card.innerText` of a child of `#quizContainer`. -/
def Block.innerText (cardText : Block → Option Mark → String)
    (ledger : List (Option Mark)) : Block → String
  | Block.questionCard index item =>
    cardText (Block.questionCard index item) (ledger.getD index none)
  | Block.reviewCard index item userAnswer =>
    cardText (Block.reviewCard index item userAnswer) none
  | Block.summaryScore correct total => summaryText correct total
  | Block.reviewScore score total => reviewScoreText score total

/-- The array mapped from `document.querySelectorAll('#quizContainer > div')`:
one text per child, in document order. -/
def exportBlocks (cardText : Block → Option Mark → String) (s : App) : List String :=
  s.container.map (Block.innerText cardText s.ledger)

/-- The string `quizText` of the copy and of the download handler: the texts
joined by a blank line. -/
def quizText (cardText : Block → Option Mark → String) (s : App) : String :=
  "\n\n".intercalate (exportBlocks cardText s)

/-- The cards `displayQuiz` appends, one per question in index order. -/
def questionCards (quiz : List Question) : List Block :=
  quiz.enum.map fun p => Block.questionCard p.1 p.2

/-- The letter before option `i`: `String.fromCharCode(65 + i)`. -/
def optionLetter (i : Nat) : String :=
  String.singleton (Char.ofNat ((65 + i) % 65536))

/-- The texts of the explanation block, written when `item.explanation` is
truthy: its title and the explanation. -/
def explanationLines (item : Question) : List String :=
  match item.explanation with
  | none => []
  | some e => if e = "" then [] else ["Explanation", e]

/-- The texts of the feedback the click handler writes under the options: the
glyph and the word as the source file holds them, then the explanation. -/
def feedbackLines (item : Question) : Option Mark → List String
  | none => []
  | some Mark.correct => ["‚úÖ", "Correct!"] ++ explanationLines item
  | some Mark.wrong => ["‚ùå", "Wrong!"] ++ explanationLines item

/-- The texts of the option rows of a live card: letter and option. -/
def optionLines (item : Question) : List String :=
  ((buttonsOf item).enum.map fun p => [optionLetter p.1 ++ ".", p.2]).flatten

/-- The texts of the option rows of a stored card: letter, option, and the
marker on the option that equals the stored answer. -/
def reviewOptionLines (item : Question) (userAnswer : Option String) : List String :=
  ((buttonsOf item).enum.map fun p =>
    [optionLetter p.1 ++ ".", p.2] ++
      (if userAnswer = some p.2 then
        (if p.2 = item.correctAnswer then ["‚úì Your answer"] else ["‚úó Your answer"])
      else [])).flatten

/-- A concrete reading of `innerText`: the texts of a block in document order,
one per line, for texts that hold no markup.  A live card holds its number,
the question, the option rows and, once answered, the feedback; a stored card
holds its number, the question and, when it has options, the option rows and
the explanation. -/
def plainCardText (b : Block) (mark : Option Mark) : String :=
  match b with
  | Block.questionCard index item =>
    "\n".intercalate
      ([toString (index + 1), item.question] ++ optionLines item ++
        (if buttonsOf item = [] then [] else feedbackLines item mark))
  | Block.reviewCard index item userAnswer =>
    "\n".intercalate
      ([toString (index + 1), item.question] ++
        (if buttonsOf item = [] then []
         else reviewOptionLines item userAnswer ++ explanationLines item))
  | Block.summaryScore correct total => summaryText correct total
  | Block.reviewScore score total => reviewScoreText score total

/-! ## Predicates and sample data of the theorems -/

/-- The ledger invariant of a session: both arrays have one entry per
question, and a question whose entry is set is flagged answered.  The flag of
a question can be set while its entry is still `null`: the handler that threw
set the one and not the other. -/
def Inv (quiz : List Question) (st : QuizState) : Prop :=
  st.answers.length = quiz.length ∧ st.answered.length = quiz.length ∧
    ∀ (q : Nat) (m : Mark), st.answers[q]? = some (some m) → st.answered.getD q false = true

/-- A one-question quiz with two options, used to run the handlers. -/
def sampleQuiz1 : List Question :=
  [{ question := "2 + 2 = ?", options := some ["4", "5"], correctAnswer := "4",
     explanation := none }]

/-- The number of summary calls in a list of handler results. -/
def callCount (calls : List (Option (Nat × Nat))) : Nat :=
  calls.countP fun o => o.isSome

/-- A signed-in user, used to run the handlers. -/
def sampleUser : User :=
  { id := 1, name := "Ada", email := "ada@example.org" }

/-- A second one-question quiz. -/
def sampleQuiz2 : List Question :=
  [{ question := "Longest river?", options := some ["Nile", "Rhine"], correctAnswer := "Nile",
     explanation := some "By length." }]

/-- A run of the page: sign in, generate a quiz that is saved under id 5,
sign out, generate a second quiz as an anonymous visitor. -/
def anonymousSecondQuiz : App :=
  let s0 := authSubmit App.init true (AuthResponse.accepted sampleUser)
  let s1 := refreshOnHistory (refreshOnProfile s0 (ProfileResponse.ok sampleUser))
    (HistoryResponse.ok (some []))
  let s2 := generateClick s1 "rivers" (GenerateResponse.ok sampleQuiz2) (SaveResponse.ok (some 5))
  let s3 := logoutUser s2 (Settled.resolved true)
  let s4 := refreshOnProfile s3 ProfileResponse.unauthorized
  generateClick s4 "sums" (GenerateResponse.ok sampleQuiz1) SaveResponse.failed

/-- The page after a sign-in whose refresh has run to its end. -/
def signedIn : App :=
  refreshOnHistory
    (refreshOnProfile (authSubmit App.init true (AuthResponse.accepted sampleUser))
      (ProfileResponse.ok sampleUser))
    (HistoryResponse.ok (some []))

/-- A five-question quiz, each question with two options. -/
def sampleQuiz5 : List Question :=
  [{ question := "1 + 1 = ?", options := some ["2", "3"], correctAnswer := "2",
     explanation := none },
   { question := "2 + 2 = ?", options := some ["4", "5"], correctAnswer := "4",
     explanation := none },
   { question := "3 + 3 = ?", options := some ["6", "7"], correctAnswer := "6",
     explanation := none },
   { question := "4 + 4 = ?", options := some ["8", "9"], correctAnswer := "8",
     explanation := none },
   { question := "5 + 5 = ?", options := some ["10", "11"], correctAnswer := "10",
     explanation := none }]

/-- Five first clicks, out of question order: four on the correct option and
one, on question 4, on the wrong one. -/
def sampleClicks5 : List (Nat × Nat) :=
  [(2, 0), (0, 0), (4, 1), (1, 0), (3, 0)]

/-- Whether an effect is the save-new-session request. -/
def Effect.isSaveQuiz : Effect → Bool
  | Effect.request (Request.saveQuiz _ _) => true
  | _ => false

/-- Whether an effect is the save-attempt request. -/
def Effect.isSaveAttempt : Effect → Bool
  | Effect.request (Request.saveQuizAttempt _ _) => true
  | _ => false

/-- Whether a block is a score block, of a live or of a stored quiz. -/
def Block.isScore : Block → Bool
  | Block.summaryScore _ _ => true
  | Block.reviewScore _ _ => true
  | _ => false

/-- The page invariant of a live session on `quiz`: the ledger invariant
holds, and the container holds the question cards, followed by the summary
block exactly when a quiz with a question has been completed. -/
def PageInv (quiz : List Question) (s : App) : Prop :=
  ∃ st, s.session = some (quiz, st) ∧ Inv quiz st ∧
    (((allAnswered st.answers = false ∨ quiz = []) ∧ s.container = questionCards quiz) ∨
     (allAnswered st.answers = true ∧ quiz ≠ [] ∧
        s.container = questionCards quiz ++
          [Block.summaryScore (correctCount st.answers) quiz.length]))

/-- The page after the one question of `sampleQuiz1` has been answered
correctly. -/
def completedSample : App :=
  App.runClicks plainBrowser (App.init.displayQuiz sampleQuiz1) [(0, 0)]

/-- The mark the handler of button `i` of question `q` writes in state `st`,
`none` when it writes nothing: no such button, question already answered, or
no feedback element to write to. -/
def writes (dom : Browser) (quiz : List Question) (st : QuizState)
    (q i : Nat) : Option Mark :=
  match quiz[q]? with
  | none => none
  | some item =>
    match (buttonsOf item)[i]? with
    | none => none
    | some option =>
      if st.answered.getD q false then none
      else if dom.hasFeedback quiz q then some (markOf dom.getAttr item option)
      else none

/-- Whether the handler of button `i` of question `q` gets past its guard in
state `st`, and so sets the flag `answered` of the question. -/
def flags (quiz : List Question) (st : QuizState) (q i : Nat) : Bool :=
  match quiz[q]? with
  | none => false
  | some item =>
    match (buttonsOf item)[i]? with
    | none => false
    | some _ => !st.answered.getD q false

/-- Two history entries, as the store returns them. -/
def sampleEntries : List HistoryEntry :=
  [{ quiz_id := 5, prompt := "rivers", is_complete := true, score := 1, total_questions := 1 },
   { quiz_id := 3, prompt := "sums", is_complete := false, score := 0, total_questions := 1 }]

/-- The rows `renderQuizHistory` shows for `sampleEntries`. -/
def sampleRows : List HistoryItem :=
  [{ title := jsString "rivers", quizId := 5 }, { title := jsString "sums", quizId := 3 }]

/-- The signed-in page with a history list on display. -/
def withHistory : App :=
  refreshSessionAndHistory signedIn (ProfileResponse.ok sampleUser)
    (HistoryResponse.ok (some sampleEntries))

/-- Whether an effect reports an error, to the user or to the console. -/
def Effect.isError : Effect → Bool
  | Effect.alert _ => true
  | Effect.consoleError _ => true
  | _ => false

/-- The signed-in page with a refresh under way: a quiz was generated and
saved, and the refresh started by the generate handler has sent its profile
request. -/
def refreshPending : App :=
  generateClick signedIn "rivers" (GenerateResponse.ok sampleQuiz2) (SaveResponse.ok (some 5))

/-- The profile response of the pending refresh arrives after a logout. -/
def lateProfile : App :=
  refreshOnProfile (logoutUser refreshPending (Settled.resolved true))
    (ProfileResponse.ok sampleUser)

/-- The history response of the pending refresh arrives after a logout and
after the profile check of the refresh the logout started was answered 401. -/
def lateHistory : App :=
  refreshOnHistory
    (refreshOnProfile
      (logoutUser (refreshOnProfile refreshPending (ProfileResponse.ok sampleUser))
        (Settled.resolved true))
      ProfileResponse.unauthorized)
    (HistoryResponse.ok (some sampleEntries))

/-- A question without options. -/
def openQuestion : Question :=
  { question := "Why?", options := none, correctAnswer := "Because.", explanation := none }

/-- A quiz whose second question has no options to click. -/
def sampleQuizOpen : List Question :=
  [{ question := "2 + 2 = ?", options := some ["4", "5"], correctAnswer := "4",
     explanation := none },
   openQuestion]

/-- A history entry whose prompt is 59 letters followed by one character
outside the Basic Multilingual Plane: 60 characters, 61 code units. -/
def longEntry : HistoryEntry :=
  { quiz_id := 9, prompt := String.mk (List.replicate 59 (Char.ofNat 97) ++ [Char.ofNat 128512]),
    is_complete := false, score := 0, total_questions := 3 }

/-- A question whose first option is the text of a `script` start tag. -/
def scriptQuestion : Question :=
  { question := "q", options := some ["<script>", "<style>"], correctAnswer := "<script>",
    explanation := none }

/-- A quiz of that one question. -/
def scriptQuiz : List Question :=
  [scriptQuestion]

/-- The document the browser builds for `scriptQuiz`.  The option text is
written unescaped into the `span` of button A, where it opens a `script`
element that nothing closes: the markup after it, the element `feedback-0`
included, becomes the text of that element, and `getElementById('feedback-0')`
returns `null`.  The attribute of button A stands before it and is read back
by the parsing rules. -/
def scriptBrowser : Browser :=
  { getAttr := htmlAttrDecode
    hasFeedback := fun _ _ => false }

/-- A history entry whose prompt holds a character reference. -/
def markupEntry : HistoryEntry :=
  { quiz_id := 4, prompt := "Tom &amp; Jerry", is_complete := false, score := 0,
    total_questions := 2 }

/-! ## The ledger invariant -/

theorem inv_displayQuiz (quiz : List Question) : Inv quiz (displayQuiz quiz) := by
  refine ⟨by simp [displayQuiz], by simp [displayQuiz], ?_⟩
  intro q m h
  simp only [displayQuiz, List.getElem?_replicate] at h
  split_ifs at h
  simp at h

/-- The three outcomes of a click: nothing happens; the entry of a question
not yet answered is written and the completion test is made; or the handler
throws after it has set the flag of the question. -/
theorem clickOption_cases (dom : Browser) (quiz : List Question)
    (st : QuizState) (q i : Nat) :
    clickOption dom quiz st q i = (st, none) ∨
    (∃ item option, quiz[q]? = some item ∧ (buttonsOf item)[i]? = some option ∧
      st.answered.getD q false = false ∧
      clickOption dom quiz st q i =
        ({ answers := st.answers.set q (some (markOf dom.getAttr item option)),
           answered := st.answered.set q true },
         if allAnswered (st.answers.set q (some (markOf dom.getAttr item option))) then
           some (correctCount (st.answers.set q (some (markOf dom.getAttr item option))),
             (st.answers.set q (some (markOf dom.getAttr item option))).length)
         else none) ∧ dom.hasFeedback quiz q = true) ∨
    (st.answered.getD q false = false ∧ dom.hasFeedback quiz q = false ∧
      clickOption dom quiz st q i =
        ({ answers := st.answers, answered := st.answered.set q true }, none)) := by
  simp only [clickOption, List.get?_eq_getElem?, List.getD_eq_getElem?_getD]
  rcases hq : quiz[q]? with _ | item
  · left; simp
  · rcases hi : (buttonsOf item)[i]? with _ | option
    · left; simp [hi]
    · by_cases ha : st.answered[q]?.getD false = true
      · left; simp [hi, ha]
      · by_cases hf : dom.hasFeedback quiz q = true
        · right; left
          refine ⟨item, option, rfl, hi, by simpa using ha, ?_, hf⟩
          simp only [hi, ha, hf]
          split_ifs <;> simp_all
        · right; right
          refine ⟨by simpa using ha, by simpa using hf, ?_⟩
          simp [hi, ha, hf]

theorem inv_clickOption (dom : Browser) (quiz : List Question)
    (st : QuizState) (q i : Nat) (h : Inv quiz st) :
    Inv quiz (clickOption dom quiz st q i).1 := by
  obtain ⟨hl1, hl2, himp⟩ := h
  rcases clickOption_cases dom quiz st q i with
    h0 | ⟨item, option, hq, _, ha, h1, _⟩ | ⟨ha, _, h2⟩
  · rw [h0]; exact ⟨hl1, hl2, himp⟩
  · rw [h1]
    have hqlt : q < quiz.length := by
      rcases List.getElem?_eq_some_iff.mp hq with ⟨hlt, _⟩
      exact hlt
    refine ⟨by simpa using hl1, by simpa using hl2, ?_⟩
    intro r m
    simp only [List.getD_eq_getElem?_getD, List.getElem?_set]
    by_cases hr : q = r
    · subst hr
      simp [hl1, hl2, hqlt]
    · simp only [hr, if_false]
      have := himp r m
      simpa [List.getD_eq_getElem?_getD] using this
  · rw [h2]
    refine ⟨hl1, by simpa using hl2, ?_⟩
    intro r m hm
    have h3 := himp r m hm
    simp only [List.getD_eq_getElem?_getD, List.getElem?_set] at h3 ⊢
    by_cases hr : q = r
    · subst hr
      rw [List.getD_eq_getElem?_getD] at ha
      rw [ha] at h3
      simp at h3
    · simpa [hr] using h3

theorem inv_runClicks (dom : Browser) (quiz : List Question)
    (cs : List (Nat × Nat)) : ∀ (st : QuizState), Inv quiz st →
    Inv quiz (runClicks dom quiz st cs) := by
  induction cs with
  | nil => intro st h; exact h
  | cons c cs ih =>
    intro st h
    exact ih _ (inv_clickOption dom quiz st c.1 c.2 h)

/-! ## Clicks one at a time -/

theorem runClicks_append (dom : Browser) (quiz : List Question)
    (as bs : List (Nat × Nat)) : ∀ (st : QuizState),
    runClicks dom quiz st (as ++ bs) =
      runClicks dom quiz (runClicks dom quiz st as) bs := by
  induction as with
  | nil => intro st; rfl
  | cons a as ih => intro st; exact ih _

/-- The state after click `k` is one handler run away from the state before
it. -/
theorem runClicks_take_succ (dom : Browser) (quiz : List Question)
    (cs : List (Nat × Nat)) (st : QuizState) (k : Nat) (c : Nat × Nat)
    (hc : cs[k]? = some c) :
    runClicks dom quiz st (cs.take (k + 1)) =
      (clickOption dom quiz (runClicks dom quiz st (cs.take k)) c.1 c.2).1 := by
  rw [List.take_succ, hc, runClicks_append]
  rfl

/-- Entry `k` of the call list is what the handler of click `k` did in the
state the earlier clicks left. -/
theorem summaryCalls_getElem? (dom : Browser) (quiz : List Question)
    (cs : List (Nat × Nat)) : ∀ (st : QuizState) (k : Nat),
    (summaryCalls dom quiz st cs)[k]? =
      cs[k]?.map fun c =>
        (clickOption dom quiz (runClicks dom quiz st (cs.take k)) c.1 c.2).2 := by
  induction cs with
  | nil => intro st k; simp [summaryCalls]
  | cons c cs ih =>
    intro st k
    cases k with
    | zero => simp [summaryCalls, runClicks]
    | succ k => simp [summaryCalls, runClicks, ih]

theorem summaryCalls_length (dom : Browser) (quiz : List Question)
    (cs : List (Nat × Nat)) : ∀ (st : QuizState),
    (summaryCalls dom quiz st cs).length = cs.length := by
  induction cs with
  | nil => intro st; rfl
  | cons c cs ih => intro st; simp [summaryCalls, ih]

theorem correctCount_eq_count (answers : List (Option Mark)) :
    correctCount answers = List.count (some Mark.correct) answers := by
  unfold correctCount
  rw [List.count, List.countP_eq_length_filter]

/-- A call made by the handler carries the count of `'correct'` entries and
the length of the array it has just written. -/
theorem clickOption_call (dom : Browser) (quiz : List Question)
    (st : QuizState) (q i c t : Nat)
    (h : (clickOption dom quiz st q i).2 = some (c, t)) :
    c = correctCount (clickOption dom quiz st q i).1.answers ∧
    t = (clickOption dom quiz st q i).1.answers.length ∧
    allAnswered (clickOption dom quiz st q i).1.answers = true ∧
    st.answered.getD q false = false := by
  rcases clickOption_cases dom quiz st q i with
    h0 | ⟨item, option, _, _, ha, h1, _⟩ | ⟨_, _, h2⟩
  · rw [h0] at h; simp at h
  · rw [h1] at h ⊢
    simp only at h ⊢
    split_ifs at h with hall
    · simp only [Option.some.injEq, Prod.mk.injEq] at h
      exact ⟨h.1.symm, h.2.symm, hall, ha⟩
  · rw [h2] at h; simp at h

/-- The handler run on a button that exists, for a question not yet
answered. -/
theorem clickOption_fresh (dom : Browser) (quiz : List Question)
    (st : QuizState) (q i : Nat) (item : Question) (option : String)
    (hq : quiz[q]? = some item) (hi : (buttonsOf item)[i]? = some option)
    (ha : st.answered.getD q false = false) (hf : dom.hasFeedback quiz q = true) :
    clickOption dom quiz st q i =
      ({ answers := st.answers.set q (some (markOf dom.getAttr item option)),
         answered := st.answered.set q true },
       if allAnswered (st.answers.set q (some (markOf dom.getAttr item option))) then
         some (correctCount (st.answers.set q (some (markOf dom.getAttr item option))),
           (st.answers.set q (some (markOf dom.getAttr item option))).length)
       else none) := by
  simp only [clickOption, List.get?_eq_getElem?, hq, hi, ha, hf]
  split_ifs <;> simp_all

/-! ## Score and total of the completion summary -/

/-- C1. In `displayQuiz`, for every quiz and every sequence of option clicks,
whenever click `k` calls `showResultSummary(c, t)`, `c` is the number of
entries of `answers` that are `'correct'` at that moment and `t` is the number
of questions. -/
theorem C1_summary_score_is_correct_count (dom : Browser)
    (quiz : List Question) (cs : List (Nat × Nat)) (k c t : Nat)
    (h : (summaryCalls dom quiz (displayQuiz quiz) cs)[k]? = some (some (c, t))) :
    c = List.count (some Mark.correct)
          (runClicks dom quiz (displayQuiz quiz) (cs.take (k + 1))).answers ∧
    t = quiz.length := by
  rw [summaryCalls_getElem?] at h
  rcases hc : cs[k]? with _ | click
  · rw [hc] at h; simp at h
  · rw [hc] at h
    simp only [Option.map_some', Option.some.injEq] at h
    have hinv := inv_runClicks dom quiz (cs.take k) _ (inv_displayQuiz quiz)
    have hinv2 := inv_clickOption dom quiz _ click.1 click.2 hinv
    obtain ⟨h1, h2, _, _⟩ := clickOption_call dom quiz _ _ _ c t h
    rw [runClicks_take_succ dom quiz cs _ k click hc, ← correctCount_eq_count]
    exact ⟨h1, h2.trans hinv2.1⟩

theorem C1_summary_score_is_correct_count_witness :
    (summaryCalls plainBrowser sampleQuiz1 (displayQuiz sampleQuiz1) [(0, 0)])[0]?
        = some (some (1, 1)) ∧
    (1 = List.count (some Mark.correct)
          (runClicks plainBrowser sampleQuiz1 (displayQuiz sampleQuiz1)
            ([(0, 0)].take (0 + 1))).answers ∧
     1 = sampleQuiz1.length) :=
  ⟨by decide, C1_summary_score_is_correct_count plainBrowser sampleQuiz1 [(0, 0)] 0 1 1
    (by decide)⟩

/-! ## An answered question stays answered -/

/-- A click on a question whose entry is set is ignored. -/
theorem clickOption_answered (dom : Browser) (quiz : List Question)
    (st : QuizState) (q i : Nat) (m : Mark) (hinv : Inv quiz st)
    (h : st.answers[q]? = some (some m)) :
    clickOption dom quiz st q i = (st, none) := by
  have hflag := hinv.2.2 q m h
  rcases clickOption_cases dom quiz st q i with
    h0 | ⟨item, option, _, _, ha, _, _⟩ | ⟨ha, _, _⟩
  · exact h0
  · rw [hflag] at ha
    exact absurd ha (by decide)
  · rw [hflag] at ha
    exact absurd ha (by decide)

/-- No click changes an entry that is set. -/
theorem clickOption_keeps (dom : Browser) (quiz : List Question)
    (st : QuizState) (q r i : Nat) (m : Mark) (hinv : Inv quiz st)
    (h : st.answers[q]? = some (some m)) :
    (clickOption dom quiz st r i).1.answers[q]? = some (some m) := by
  rcases clickOption_cases dom quiz st r i with
    h0 | ⟨item, option, _, _, ha, h1, _⟩ | ⟨_, _, h2⟩
  · rw [h0]; exact h
  · rw [h1]
    have hne : r ≠ q := by
      intro e
      subst e
      have := hinv.2.2 r m h
      rw [this] at ha
      exact absurd ha (by decide)
    simp only [List.getElem?_set, hne, if_false]
    exact h
  · rw [h2]; exact h

theorem runClicks_keeps (dom : Browser) (quiz : List Question)
    (q : Nat) (m : Mark) (cs : List (Nat × Nat)) : ∀ (st : QuizState), Inv quiz st →
    st.answers[q]? = some (some m) →
    (runClicks dom quiz st cs).answers[q]? = some (some m) := by
  induction cs with
  | nil => intro st _ h; exact h
  | cons c cs ih =>
    intro st hinv h
    exact ih _ (inv_clickOption dom quiz st c.1 c.2 hinv)
      (clickOption_keeps dom quiz st q c.1 c.2 m hinv h)

/-- C2. In `displayQuiz`, once `answers[q]` has been set it never changes
again: in any state reached by clicks where `answers[q]` is `'correct'` or
`'wrong'`, a further click on any option of question `q` leaves the whole
`answers` array and the count of correct answers unchanged and makes no
summary call, and after any further clicks `answers[q]` still holds the same
mark. -/
theorem C2_answered_entry_never_changes (dom : Browser)
    (quiz : List Question) (cs : List (Nat × Nat)) (q : Nat) (m : Mark)
    (h : (runClicks dom quiz (displayQuiz quiz) cs).answers[q]? = some (some m)) :
    (∀ i,
      (clickOption dom quiz (runClicks dom quiz (displayQuiz quiz) cs) q i).1.answers
        = (runClicks dom quiz (displayQuiz quiz) cs).answers ∧
      List.count (some Mark.correct)
        (clickOption dom quiz (runClicks dom quiz (displayQuiz quiz) cs) q i).1.answers
        = List.count (some Mark.correct)
            (runClicks dom quiz (displayQuiz quiz) cs).answers ∧
      (clickOption dom quiz (runClicks dom quiz (displayQuiz quiz) cs) q i).2 = none) ∧
    (∀ more,
      (runClicks dom quiz (runClicks dom quiz (displayQuiz quiz) cs) more).answers[q]?
        = some (some m)) := by
  have hinv := inv_runClicks dom quiz cs _ (inv_displayQuiz quiz)
  constructor
  · intro i
    rw [clickOption_answered dom quiz _ q i m hinv h]
    exact ⟨rfl, rfl, rfl⟩
  · intro more
    exact runClicks_keeps dom quiz q m more _ hinv h

theorem C2_answered_entry_never_changes_witness :
    (runClicks plainBrowser sampleQuiz1 (displayQuiz sampleQuiz1) [(0, 1)]).answers[0]?
        = some (some Mark.wrong) ∧
    (clickOption plainBrowser sampleQuiz1
        (runClicks plainBrowser sampleQuiz1 (displayQuiz sampleQuiz1) [(0, 1)]) 0 0).1.answers
      = [some Mark.wrong] :=
  ⟨by decide,
   ((C2_answered_entry_never_changes plainBrowser sampleQuiz1 [(0, 1)] 0 Mark.wrong
      (by decide)).1 0).1.trans (by decide)⟩

/-! ## The completion call is made once -/

theorem allAnswered_iff (answers : List (Option Mark)) :
    allAnswered answers = true ↔ ∀ a ∈ answers, a ≠ none := by
  simp [allAnswered]

/-- In a complete ledger every click is ignored. -/
theorem clickOption_complete (dom : Browser) (quiz : List Question)
    (st : QuizState) (q i : Nat) (hinv : Inv quiz st)
    (hall : allAnswered st.answers = true) :
    clickOption dom quiz st q i = (st, none) := by
  by_cases hqlt : q < st.answers.length
  · have hmem : st.answers[q] ∈ st.answers := List.getElem_mem hqlt
    have hne := (allAnswered_iff st.answers).mp hall _ hmem
    obtain ⟨m, hm⟩ := Option.ne_none_iff_exists'.mp hne
    have hget : st.answers[q]? = some (some m) := by
      rw [List.getElem?_eq_getElem hqlt, hm]
    exact clickOption_answered dom quiz st q i m hinv hget
  · have hq : quiz[q]? = none := by
      rw [List.getElem?_eq_none_iff, ← hinv.1]
      omega
    simp [clickOption, hq]

/-- A click that changes the ledger starts from an incomplete one. -/
theorem clickOption_call_from_incomplete (dom : Browser)
    (quiz : List Question) (st : QuizState) (q i : Nat) (ct : Nat × Nat)
    (hinv : Inv quiz st) (h : (clickOption dom quiz st q i).2 = some ct) :
    allAnswered st.answers = false := by
  by_contra hne
  have hall : allAnswered st.answers = true := by simpa using hne
  rw [clickOption_complete dom quiz st q i hinv hall] at h
  simp at h

/-- A click that completes an incomplete ledger makes the call. -/
theorem clickOption_completing (dom : Browser) (quiz : List Question)
    (st : QuizState) (q i : Nat) (hbefore : allAnswered st.answers = false)
    (hafter : allAnswered (clickOption dom quiz st q i).1.answers = true) :
    ∃ ct, (clickOption dom quiz st q i).2 = some ct := by
  rcases clickOption_cases dom quiz st q i with
    h0 | ⟨item, option, _, _, _, h1, _⟩ | ⟨_, _, h2⟩
  · rw [h0] at hafter
    rw [hbefore] at hafter
    exact absurd hafter (by decide)
  · rw [h1] at hafter ⊢
    simp only at hafter ⊢
    rw [if_pos hafter]
    exact ⟨_, rfl⟩
  · rw [h2] at hafter
    rw [hbefore] at hafter
    exact absurd hafter (by decide)

theorem summaryCalls_complete (dom : Browser) (quiz : List Question)
    (cs : List (Nat × Nat)) : ∀ (st : QuizState), Inv quiz st →
    allAnswered st.answers = true →
    callCount (summaryCalls dom quiz st cs) = 0 := by
  induction cs with
  | nil => intro st _ _; rfl
  | cons c cs ih =>
    intro st hinv hall
    have h0 := clickOption_complete dom quiz st c.1 c.2 hinv hall
    simp only [summaryCalls, h0, callCount, List.countP_cons, Option.isSome_none,
      Bool.false_eq_true, if_false, Nat.add_zero]
    exact ih st hinv hall

theorem summaryCalls_le_one (dom : Browser) (quiz : List Question)
    (cs : List (Nat × Nat)) : ∀ (st : QuizState), Inv quiz st →
    callCount (summaryCalls dom quiz st cs) ≤ 1 := by
  induction cs with
  | nil => intro st _; simp [summaryCalls, callCount]
  | cons c cs ih =>
    intro st hinv
    have hinv2 := inv_clickOption dom quiz st c.1 c.2 hinv
    simp only [summaryCalls, callCount, List.countP_cons]
    rcases hev : (clickOption dom quiz st c.1 c.2).2 with _ | ⟨a, b⟩
    · simpa using ih _ hinv2
    · obtain ⟨_, _, hall, _⟩ := clickOption_call dom quiz st c.1 c.2 a b hev
      have := summaryCalls_complete dom quiz cs _ hinv2 hall
      simp only [callCount] at this
      simp [this]

theorem summaryCalls_eq_one (dom : Browser) (quiz : List Question)
    (cs : List (Nat × Nat)) : ∀ (st : QuizState), Inv quiz st →
    allAnswered st.answers = false →
    allAnswered (runClicks dom quiz st cs).answers = true →
    callCount (summaryCalls dom quiz st cs) = 1 := by
  induction cs with
  | nil =>
    intro st _ h1 h2
    simp only [runClicks] at h2
    rw [h1] at h2
    exact absurd h2 (by decide)
  | cons c cs ih =>
    intro st hinv h1 h2
    have hinv2 := inv_clickOption dom quiz st c.1 c.2 hinv
    simp only [summaryCalls, callCount, List.countP_cons]
    by_cases hmid : allAnswered (clickOption dom quiz st c.1 c.2).1.answers = true
    · obtain ⟨ct, hct⟩ := clickOption_completing dom quiz st c.1 c.2 h1 hmid
      have := summaryCalls_complete dom quiz cs _ hinv2 hmid
      simp only [callCount] at this
      simp [this, hct]
    · have hmid2 : allAnswered (clickOption dom quiz st c.1 c.2).1.answers = false := by
        simpa using hmid
      have hnone : (clickOption dom quiz st c.1 c.2).2 = none := by
        rcases hev : (clickOption dom quiz st c.1 c.2).2 with _ | ⟨a, b⟩
        · rfl
        · obtain ⟨_, _, hall, _⟩ := clickOption_call dom quiz st c.1 c.2 a b hev
          rw [hall] at hmid2
          exact absurd hmid2 (by decide)
      have := ih _ hinv2 hmid2 h2
      simp only [callCount] at this
      simp [this, hnone]

/-- What a page click adds to the log. -/
theorem page_click_effects (dom : Browser) (s : App)
    (quiz : List Question) (st : QuizState) (q i : Nat) (hs : s.session = some (quiz, st)) :
    ((clickOption dom quiz st q i).2 = none →
      (s.clickOption dom q i).effects = s.effects) ∧
    (∀ c t, (clickOption dom quiz st q i).2 = some (c, t) →
      ∃ rest, (s.clickOption dom q i).effects =
          s.effects ++ [Effect.showResultSummary c t, Effect.showCelebrationScreen c t,
            Effect.sendQuizAttempt c t] ++ rest ∧
        ∀ e ∈ rest, ∃ id, e = Effect.request (Request.saveQuizAttempt id c)) := by
  constructor
  · intro h
    simp [App.clickOption, hs, h]
  · intro c t h
    simp only [App.clickOption, hs, h, showResultSummary, sendQuizAttempt, App.emit]
    rcases hid : s.currentQuizId with _ | id
    · exact ⟨[], by simp, by simp⟩
    · cases id with
      | zero => exact ⟨[], by simp, by simp⟩
      | succ n =>
        exact ⟨[Effect.request (Request.saveQuizAttempt (n + 1) c)], by simp, by simp⟩

/-- C3. In `displayQuiz`, for every session and every sequence of option
clicks, `showResultSummary` is called on click `k` exactly when that click
turns the last `null` entry of `answers` into a non-null one; over the whole
sequence it is called at most once, and exactly once when the quiz has a
question and the sequence answers them all.  On the page the calls of
`showCelebrationScreen` and `sendQuizAttempt` are made by that call and by no
other click. -/
theorem C3_completion_fires_exactly_once (dom : Browser)
    (quiz : List Question) (cs : List (Nat × Nat)) :
    (∀ k, (∃ ct, (summaryCalls dom quiz (displayQuiz quiz) cs)[k]? = some (some ct)) ↔
      (k < cs.length ∧
        allAnswered (runClicks dom quiz (displayQuiz quiz) (cs.take k)).answers = false ∧
        allAnswered (runClicks dom quiz (displayQuiz quiz) (cs.take (k + 1))).answers
          = true)) ∧
    callCount (summaryCalls dom quiz (displayQuiz quiz) cs) ≤ 1 ∧
    (quiz ≠ [] →
      allAnswered (runClicks dom quiz (displayQuiz quiz) cs).answers = true →
      callCount (summaryCalls dom quiz (displayQuiz quiz) cs) = 1) ∧
    (∀ (s : App) (st : QuizState) (q i : Nat), s.session = some (quiz, st) →
      ((clickOption dom quiz st q i).2 = none →
        (s.clickOption dom q i).effects = s.effects) ∧
      (∀ c t, (clickOption dom quiz st q i).2 = some (c, t) →
        ∃ rest, (s.clickOption dom q i).effects =
            s.effects ++ [Effect.showResultSummary c t, Effect.showCelebrationScreen c t,
              Effect.sendQuizAttempt c t] ++ rest ∧
          ∀ e ∈ rest, ∃ id, e = Effect.request (Request.saveQuizAttempt id c))) := by
  refine ⟨?_, summaryCalls_le_one dom quiz cs _ (inv_displayQuiz quiz), ?_, ?_⟩
  · intro k
    have hinv := inv_runClicks dom quiz (cs.take k) _ (inv_displayQuiz quiz)
    rw [summaryCalls_getElem?]
    constructor
    · rintro ⟨ct, h⟩
      rcases hc : cs[k]? with _ | click
      · rw [hc] at h; simp at h
      · rw [hc] at h
        simp only [Option.map_some', Option.some.injEq] at h
        have hk : k < cs.length := (List.getElem?_eq_some_iff.mp hc).1
        obtain ⟨_, _, hall, _⟩ := clickOption_call dom quiz _ _ _ ct.1 ct.2 h
        refine ⟨hk, clickOption_call_from_incomplete dom quiz _ _ _ ct hinv h, ?_⟩
        rw [runClicks_take_succ dom quiz cs _ k click hc]
        exact hall
    · rintro ⟨hk, hb, ha⟩
      have hc : cs[k]? = some cs[k] := List.getElem?_eq_getElem hk
      rw [runClicks_take_succ dom quiz cs _ k cs[k] hc] at ha
      obtain ⟨ct, hct⟩ := clickOption_completing dom quiz _ _ _ hb ha
      exact ⟨ct, by rw [hc]; simp [hct]⟩
  · intro hne hall
    have h0 : allAnswered (displayQuiz quiz).answers = false := by
      cases quiz with
      | nil => exact absurd rfl hne
      | cons a as => simp [displayQuiz, allAnswered, List.replicate_succ]
    exact summaryCalls_eq_one dom quiz cs _ (inv_displayQuiz quiz) h0 hall
  · intro s st q i hs
    exact page_click_effects dom s quiz st q i hs

theorem C3_completion_fires_exactly_once_witness :
    sampleQuiz1 ≠ [] ∧
    allAnswered (runClicks plainBrowser sampleQuiz1 (displayQuiz sampleQuiz1)
      [(0, 1), (0, 0), (0, 1)]).answers = true ∧
    callCount (summaryCalls plainBrowser sampleQuiz1 (displayQuiz sampleQuiz1)
      [(0, 1), (0, 0), (0, 1)]) = 1 :=
  ⟨by decide, by decide,
   (C3_completion_fires_exactly_once plainBrowser sampleQuiz1
      [(0, 1), (0, 0), (0, 1)]).2.2.1 (by decide) (by decide)⟩

/-! ## The mark written by the first click -/

/-- The first click on a question whose feedback element is in the document
writes `'correct'` exactly when the string read back from `data-opt` equals
`correctAnswer`, and `'wrong'` otherwise; without the feedback element it
writes nothing. -/
theorem clickOption_first_click (dom : Browser) (quiz : List Question)
    (st : QuizState) (q i : Nat) (item : Question) (option : String)
    (hlen : st.answers.length = quiz.length)
    (hq : quiz[q]? = some item) (hi : (buttonsOf item)[i]? = some option)
    (ha : st.answered.getD q false = false) :
    (dom.hasFeedback quiz q = true →
      ((clickOption dom quiz st q i).1.answers[q]? = some (some Mark.correct) ↔
        dom.getAttr (escapeOpt option) = item.correctAnswer) ∧
      ((clickOption dom quiz st q i).1.answers[q]? = some (some Mark.wrong) ↔
        dom.getAttr (escapeOpt option) ≠ item.correctAnswer)) ∧
    (dom.hasFeedback quiz q = false →
      (clickOption dom quiz st q i).1.answers = st.answers ∧
      (clickOption dom quiz st q i).2 = none ∧
      clickThrows dom quiz st q i = true) := by
  have hqlt : q < st.answers.length := by
    rw [hlen]
    exact (List.getElem?_eq_some_iff.mp hq).1
  constructor
  · intro hf
    rw [clickOption_fresh dom quiz st q i item option hq hi ha hf]
    simp only [List.getElem?_set_self hqlt, Option.some.injEq, markOf]
    by_cases he : dom.getAttr (escapeOpt option) = item.correctAnswer
    · simp [he]
    · simp [he]
  · intro hf
    simp [clickOption, clickThrows, hq, hi, ha, hf, -List.getD_eq_getElem?_getD]

/-- Once every question is flagged answered, clicks change nothing and call
nothing. -/
theorem clickOption_all_flagged (dom : Browser) (quiz : List Question)
    (st : QuizState) (hall : ∀ q, q < quiz.length → st.answered.getD q false = true)
    (q i : Nat) : clickOption dom quiz st q i = (st, none) := by
  rcases hq : quiz[q]? with _ | item
  · simp [clickOption, hq]
  · have hlt : q < quiz.length := (List.getElem?_eq_some_iff.mp hq).1
    rcases hi : (buttonsOf item)[i]? with _ | option
    · simp [clickOption, hq, hi]
    · simp [clickOption, hq, hi, hall q hlt, -List.getD_eq_getElem?_getD]

theorem runClicks_all_flagged (dom : Browser) (quiz : List Question)
    (st : QuizState) (hall : ∀ q, q < quiz.length → st.answered.getD q false = true)
    (cs : List (Nat × Nat)) :
    runClicks dom quiz st cs = st ∧ callCount (summaryCalls dom quiz st cs) = 0 := by
  induction cs with
  | nil => exact ⟨rfl, rfl⟩
  | cons c cs ih =>
    simp only [runClicks, summaryCalls, clickOption_all_flagged dom quiz st hall c.1 c.2,
      callCount, List.countP_cons, Option.isSome_none, Bool.false_eq_true, if_false,
      Nat.add_zero]
    exact ih

/-- C4 does not hold of the code. In the quiz whose one question has the
options `<script>` and `<style>` and the correct answer `<script>`, the first
click on option A selects a string that is exactly equal to `correctAnswer`,
yet the record is not set to `'correct'`: the handler sets `answered`, throws
at `feedbackDiv.innerHTML` because the unescaped option text has taken the
feedback element out of the document, and leaves `answers[0]` at `null`.
Every later click is ignored, so the record stays `null` and the summary is
never shown. -/
theorem C4_script_option_leaves_record_null :
    scriptBrowser.getAttr (escapeOpt "<script>") = scriptQuestion.correctAnswer ∧
    markOf scriptBrowser.getAttr scriptQuestion "<script>" = Mark.correct ∧
    clickThrows scriptBrowser scriptQuiz (displayQuiz scriptQuiz) 0 0 = true ∧
    clickOption scriptBrowser scriptQuiz (displayQuiz scriptQuiz) 0 0
      = ({ answers := [none], answered := [true] }, none) ∧
    (∀ cs : List (Nat × Nat),
      (runClicks scriptBrowser scriptQuiz (displayQuiz scriptQuiz) ((0, 0) :: cs)).answers
        = [none] ∧
      callCount (summaryCalls scriptBrowser scriptQuiz (displayQuiz scriptQuiz) ((0, 0) :: cs))
        = 0) := by
  refine ⟨by decide, by decide, by decide, by decide, ?_⟩
  intro cs
  have hclick : clickOption scriptBrowser scriptQuiz (displayQuiz scriptQuiz) 0 0
      = ({ answers := [none], answered := [true] }, none) := by decide
  have hall : ∀ q, q < scriptQuiz.length →
      ({ answers := [none], answered := [true] } : QuizState).answered.getD q false = true := by
    intro q hq
    have h0 : q = 0 := by
      simp only [scriptQuiz, List.length_singleton] at hq
      omega
    subst h0
    rfl
  obtain ⟨h1, h2⟩ := runClicks_all_flagged scriptBrowser scriptQuiz _ hall cs
  simp only [runClicks, summaryCalls, hclick, callCount, List.countP_cons, Option.isSome_none,
    Bool.false_eq_true, if_false, Nat.add_zero]
  rw [h1]
  exact ⟨rfl, h2⟩

/-! ## Rounding to binary64 is monotone -/

theorem log2Fuel_spec : ∀ (fuel n : Nat), 0 < n → n ≤ fuel →
    2 ^ log2Fuel fuel n ≤ n ∧ n < 2 ^ (log2Fuel fuel n + 1) := by
  intro fuel
  induction fuel with
  | zero => intro n h0 h1; omega
  | succ f ih =>
    intro n h0 h1
    unfold log2Fuel
    by_cases h2 : n < 2
    · simp only [h2, if_true]
      constructor <;> simp <;> omega
    · simp only [h2, if_false]
      have h3 := ih (n / 2) (by omega) (by omega)
      rw [pow_succ, pow_succ 2 (log2Fuel f (n / 2) + 1)]
      omega

theorem ilog2_spec (n : Nat) (h : 0 < n) : 2 ^ ilog2 n ≤ n ∧ n < 2 ^ (ilog2 n + 1) :=
  log2Fuel_spec n n h (le_refl n)

theorem roundNearestEven_floor_le (q : ℚ) : ⌊q⌋ ≤ roundNearestEven q := by
  unfold roundNearestEven
  split_ifs <;> omega

theorem roundNearestEven_le_floor_succ (q : ℚ) : roundNearestEven q ≤ ⌊q⌋ + 1 := by
  unfold roundNearestEven
  split_ifs <;> omega

theorem roundNearestEven_intCast (n : ℤ) : roundNearestEven (n : ℚ) = n := by
  unfold roundNearestEven
  simp

theorem roundNearestEven_mono {p q : ℚ} (h : p ≤ q) : roundNearestEven p ≤ roundNearestEven q := by
  have hf : ⌊p⌋ ≤ ⌊q⌋ := Int.floor_mono h
  rcases lt_or_eq_of_le hf with hlt | heq
  · calc roundNearestEven p ≤ ⌊p⌋ + 1 := roundNearestEven_le_floor_succ p
      _ ≤ ⌊q⌋ := hlt
      _ ≤ roundNearestEven q := roundNearestEven_floor_le q
  · unfold roundNearestEven
    rw [heq]
    have hsub : p - ⌊q⌋ ≤ q - ⌊q⌋ := by linarith
    split_ifs <;> first | omega | (exfalso; linarith)

theorem binade_spec (x : ℚ) (hx : 0 < x) :
    (2:ℚ) ^ binade x ≤ x ∧ x < (2:ℚ) ^ (binade x + 1) := by
  have hnum : 0 < x.num := Rat.num_pos.mpr hx
  have hn : 0 < x.num.toNat := by omega
  have hd : 0 < x.den := x.den_pos
  obtain ⟨hn1, hn2⟩ := ilog2_spec _ hn
  obtain ⟨hd1, hd2⟩ := ilog2_spec _ hd
  have hxe : x = (x.num.toNat : ℚ) / (x.den : ℚ) := by
    have h1 : ((x.num.toNat : ℤ) : ℚ) = (x.num : ℚ) := by
      rw [Int.toNat_of_nonneg hnum.le]
    have h2 : ((x.num.toNat : ℕ) : ℚ) = ((x.num.toNat : ℤ) : ℚ) := by push_cast; rfl
    rw [h2, h1]
    exact (Rat.num_div_den x).symm
  have hdq : (0:ℚ) < (x.den : ℚ) := by exact_mod_cast hd
  have hn1q : (2:ℚ) ^ ilog2 x.num.toNat ≤ (x.num.toNat : ℚ) := by exact_mod_cast hn1
  have hn2q : (x.num.toNat : ℚ) < (2:ℚ) ^ (ilog2 x.num.toNat + 1) := by exact_mod_cast hn2
  have hd1q : (2:ℚ) ^ ilog2 x.den ≤ (x.den : ℚ) := by exact_mod_cast hd1
  have hd2q : (x.den : ℚ) < (2:ℚ) ^ (ilog2 x.den + 1) := by exact_mod_cast hd2
  have h2 : (0:ℚ) < 2 := by norm_num
  have h2' : (2:ℚ) ≠ 0 := by norm_num
  -- lower and upper envelope
  have hlow : (2:ℚ) ^ ((ilog2 x.num.toNat : ℤ) - (ilog2 x.den : ℤ) - 1) ≤ x := by
    have e : (2:ℚ) ^ ((ilog2 x.num.toNat : ℤ) - (ilog2 x.den : ℤ) - 1)
        = (2:ℚ) ^ ilog2 x.num.toNat / (2:ℚ) ^ (ilog2 x.den + 1) := by
      rw [show ((ilog2 x.num.toNat : ℤ) - (ilog2 x.den : ℤ) - 1)
        = (ilog2 x.num.toNat : ℤ) - ((ilog2 x.den + 1 : ℕ) : ℤ) by push_cast; ring]
      rw [zpow_sub₀ h2', zpow_natCast, zpow_natCast]
    rw [e]
    conv_rhs => rw [hxe]
    rw [div_le_div_iff₀ (by positivity) hdq]
    calc (2:ℚ) ^ ilog2 x.num.toNat * (x.den : ℚ)
        ≤ (x.num.toNat : ℚ) * (x.den : ℚ) := by
          apply mul_le_mul_of_nonneg_right hn1q hdq.le
      _ ≤ (x.num.toNat : ℚ) * (2:ℚ) ^ (ilog2 x.den + 1) := by
          apply mul_le_mul_of_nonneg_left hd2q.le (by positivity)
  have hup : x < (2:ℚ) ^ ((ilog2 x.num.toNat : ℤ) - (ilog2 x.den : ℤ) + 1) := by
    have e : (2:ℚ) ^ ((ilog2 x.num.toNat : ℤ) - (ilog2 x.den : ℤ) + 1)
        = (2:ℚ) ^ (ilog2 x.num.toNat + 1) / (2:ℚ) ^ ilog2 x.den := by
      rw [show ((ilog2 x.num.toNat : ℤ) - (ilog2 x.den : ℤ) + 1)
        = ((ilog2 x.num.toNat + 1 : ℕ) : ℤ) - (ilog2 x.den : ℤ) by push_cast; ring]
      rw [zpow_sub₀ h2', zpow_natCast, zpow_natCast]
    rw [e]
    conv_lhs => rw [hxe]
    rw [div_lt_div_iff₀ hdq (by positivity)]
    calc (x.num.toNat : ℚ) * (2:ℚ) ^ ilog2 x.den
        ≤ (x.num.toNat : ℚ) * (x.den : ℚ) := by
          apply mul_le_mul_of_nonneg_left hd1q (by positivity)
      _ < (2:ℚ) ^ (ilog2 x.num.toNat + 1) * (x.den : ℚ) := by
          apply mul_lt_mul_of_pos_right hn2q hdq
  unfold binade
  split_ifs with hc
  · exact ⟨hc, hup⟩
  · refine ⟨hlow, ?_⟩
    rw [sub_add_cancel]
    exact lt_of_not_le hc

theorem binade_mono {x y : ℚ} (hx : 0 < x) (hxy : x ≤ y) : binade x ≤ binade y := by
  have h1 := (binade_spec x hx).1
  have h2 := (binade_spec y (lt_of_lt_of_le hx hxy)).2
  have h3 : (2:ℚ) ^ binade x < (2:ℚ) ^ (binade y + 1) := lt_of_le_of_lt (le_trans h1 hxy) h2
  have h4 := (zpow_lt_zpow_iff_right₀ (by norm_num : (1:ℚ) < 2)).mp h3
  omega

theorem two_pow_scale (n : ℕ) (e : ℤ) :
    (((2:ℤ) ^ n : ℤ) : ℚ) * (2:ℚ) ^ (e - n) = (2:ℚ) ^ e := by
  rw [Int.cast_pow, Int.cast_ofNat, ← zpow_natCast, ← zpow_add₀ (by norm_num : (2:ℚ) ≠ 0)]
  congr 1; ring

theorem roundDouble_of_pos {x : ℚ} (hx : 0 < x) :
    roundDouble x = roundNearestEven (x / 2 ^ (binade x - 52)) * 2 ^ (binade x - 52) := by
  unfold roundDouble
  rw [if_neg (not_le.mpr hx)]

theorem roundDouble_ge_pow {y : ℚ} (hy : 0 < y) : (2:ℚ) ^ binade y ≤ roundDouble y := by
  rw [roundDouble_of_pos hy]
  have hs : (0:ℚ) < 2 ^ (binade y - 52) := by positivity
  have e : (((2:ℤ) ^ 52 : ℤ) : ℚ) * 2 ^ (binade y - 52) = (2:ℚ) ^ binade y := by
    have := two_pow_scale 52 (binade y)
    exact_mod_cast this
  have h1 : (((2:ℤ) ^ 52 : ℤ) : ℚ) ≤ y / 2 ^ (binade y - 52) := by
    rw [le_div_iff₀ hs, e]
    exact (binade_spec y hy).1
  have h2 := roundNearestEven_mono h1
  rw [roundNearestEven_intCast] at h2
  have h3 : (((2:ℤ) ^ 52 : ℤ) : ℚ) ≤ (roundNearestEven (y / 2 ^ (binade y - 52)) : ℚ) := by
    exact_mod_cast h2
  calc (2:ℚ) ^ binade y = (((2:ℤ) ^ 52 : ℤ) : ℚ) * 2 ^ (binade y - 52) := e.symm
    _ ≤ _ := mul_le_mul_of_nonneg_right h3 hs.le

theorem roundDouble_le_pow {x : ℚ} (hx : 0 < x) : roundDouble x ≤ (2:ℚ) ^ (binade x + 1) := by
  rw [roundDouble_of_pos hx]
  have hs : (0:ℚ) < 2 ^ (binade x - 52) := by positivity
  have e : (((2:ℤ) ^ 53 : ℤ) : ℚ) * 2 ^ (binade x - 52) = (2:ℚ) ^ (binade x + 1) := by
    have := two_pow_scale 53 (binade x + 1)
    rw [show binade x + 1 - ((53:ℕ):ℤ) = binade x - 52 by push_cast; ring] at this
    exact this
  have h1 : x / 2 ^ (binade x - 52) ≤ (((2:ℤ) ^ 53 : ℤ) : ℚ) := by
    rw [div_le_iff₀ hs, e]
    exact (binade_spec x hx).2.le
  have h2 := roundNearestEven_mono h1
  rw [roundNearestEven_intCast] at h2
  have h3 : (roundNearestEven (x / 2 ^ (binade x - 52)) : ℚ) ≤ (((2:ℤ) ^ 53 : ℤ) : ℚ) := by
    exact_mod_cast h2
  calc _ ≤ (((2:ℤ) ^ 53 : ℤ) : ℚ) * 2 ^ (binade x - 52) := mul_le_mul_of_nonneg_right h3 hs.le
    _ = _ := e

theorem roundDouble_nonneg (x : ℚ) : 0 ≤ roundDouble x := by
  by_cases hx : x ≤ 0
  · unfold roundDouble; rw [if_pos hx]
  · have hx' : 0 < x := not_le.mp hx
    exact le_trans (by positivity) (roundDouble_ge_pow hx')

theorem roundDouble_mono {x y : ℚ} (h : x ≤ y) : roundDouble x ≤ roundDouble y := by
  by_cases hx : x ≤ 0
  · have : roundDouble x = 0 := by unfold roundDouble; rw [if_pos hx]
    rw [this]; exact roundDouble_nonneg y
  · have hx' : 0 < x := not_le.mp hx
    have hy' : 0 < y := lt_of_lt_of_le hx' h
    rcases lt_or_eq_of_le (binade_mono hx' h) with hlt | heq
    · calc roundDouble x ≤ (2:ℚ) ^ (binade x + 1) := roundDouble_le_pow hx'
        _ ≤ (2:ℚ) ^ binade y := zpow_le_zpow_right₀ (by norm_num) (by omega)
        _ ≤ roundDouble y := roundDouble_ge_pow hy'
    · rw [roundDouble_of_pos hx', roundDouble_of_pos hy', heq]
      have hs : (0:ℚ) < 2 ^ (binade y - 52) := by positivity
      have h1 : x / 2 ^ (binade y - 52) ≤ y / 2 ^ (binade y - 52) :=
        div_le_div_of_nonneg_right h hs.le
      have h2 := roundNearestEven_mono h1
      have h3 : (roundNearestEven (x / 2 ^ (binade y - 52)) : ℚ)
          ≤ (roundNearestEven (y / 2 ^ (binade y - 52)) : ℚ) := by exact_mod_cast h2
      exact mul_le_mul_of_nonneg_right h3 hs.le

/-! ## Tiers of the celebration screen -/

theorem percentage_of_pos (score total : Nat) (ht : 1 ≤ total) :
    percentage score total =
      JsNum.finite (roundDouble (roundDouble ((score : ℚ) / (total : ℚ)) * 100)) := by
  unfold percentage
  rw [if_neg (by omega)]

/-- At or above a boundary the comparison succeeds, once the boundary itself
passes the two roundings. -/
theorem percentage_ge_of_le (B score total : Nat) (ht : 1 ≤ total)
    (hB : (B : ℚ) ≤ roundDouble (roundDouble ((B : ℚ) / 100) * 100))
    (h : B * total ≤ 100 * score) : (percentage score total).ge B = true := by
  rw [percentage_of_pos score total ht]
  simp only [JsNum.ge, decide_eq_true_eq]
  have htq : (0 : ℚ) < (total : ℚ) := by exact_mod_cast ht
  have h1 : (B : ℚ) / 100 ≤ (score : ℚ) / (total : ℚ) := by
    rw [div_le_div_iff₀ (by norm_num) htq]
    have : (B : ℚ) * (total : ℚ) ≤ 100 * (score : ℚ) := by exact_mod_cast h
    linarith
  have h2 := roundDouble_mono h1
  have h3 : roundDouble ((B : ℚ) / 100) * 100 ≤ roundDouble ((score : ℚ) / (total : ℚ)) * 100 :=
    mul_le_mul_of_nonneg_right h2 (by norm_num)
  exact le_trans hB (roundDouble_mono h3)

/-- Below a boundary the comparison fails, for totals an array length can
take. -/
theorem percentage_lt_of_lt (B score total : Nat) (ht : 1 ≤ total) (ht2 : total < 2 ^ 32)
    (hB : roundDouble (roundDouble ((B : ℚ) / 100 - 1 / (100 * 2 ^ 32)) * 100) < (B : ℚ))
    (h : 100 * score < B * total) : (percentage score total).ge B = false := by
  rw [percentage_of_pos score total ht]
  simp only [JsNum.ge, decide_eq_false_iff_not, not_le]
  have htq : (0 : ℚ) < (total : ℚ) := by exact_mod_cast ht
  have ht2q : (total : ℚ) ≤ 2 ^ 32 := by exact_mod_cast ht2.le
  have hq : 100 * (score : ℚ) + 1 ≤ (B : ℚ) * (total : ℚ) := by exact_mod_cast h
  have h1 : (score : ℚ) / (total : ℚ) ≤ (B : ℚ) / 100 - 1 / (100 * 2 ^ 32) := by
    rw [div_le_iff₀ htq]
    have e : ((B : ℚ) / 100 - 1 / (100 * 2 ^ 32)) * (total : ℚ)
        = ((B : ℚ) * (total : ℚ)) / 100 - (total : ℚ) / (100 * 2 ^ 32) := by ring
    rw [e]
    have h5 : (total : ℚ) / (100 * 2 ^ 32) ≤ 1 / 100 := by
      rw [div_le_div_iff₀ (by norm_num) (by norm_num)]
      linarith
    linarith
  have h2 := roundDouble_mono h1
  have h3 : roundDouble ((score : ℚ) / (total : ℚ)) * 100
      ≤ roundDouble ((B : ℚ) / 100 - 1 / (100 * 2 ^ 32)) * 100 :=
    mul_le_mul_of_nonneg_right h2 (by norm_num)
  exact lt_of_le_of_lt (roundDouble_mono h3) hB

theorem boundary_90 : ((90 : ℕ) : ℚ) ≤ roundDouble (roundDouble (((90 : ℕ) : ℚ) / 100) * 100) := by
  decide!

theorem boundary_80 : ((80 : ℕ) : ℚ) ≤ roundDouble (roundDouble (((80 : ℕ) : ℚ) / 100) * 100) := by
  decide!

theorem boundary_70 : ((70 : ℕ) : ℚ) ≤ roundDouble (roundDouble (((70 : ℕ) : ℚ) / 100) * 100) := by
  decide!

theorem boundary_60 : ((60 : ℕ) : ℚ) ≤ roundDouble (roundDouble (((60 : ℕ) : ℚ) / 100) * 100) := by
  decide!

theorem below_90 :
    roundDouble (roundDouble (((90 : ℕ) : ℚ) / 100 - 1 / (100 * 2 ^ 32)) * 100) < ((90 : ℕ) : ℚ) := by
  decide!

theorem below_80 :
    roundDouble (roundDouble (((80 : ℕ) : ℚ) / 100 - 1 / (100 * 2 ^ 32)) * 100) < ((80 : ℕ) : ℚ) := by
  decide!

theorem below_70 :
    roundDouble (roundDouble (((70 : ℕ) : ℚ) / 100 - 1 / (100 * 2 ^ 32)) * 100) < ((70 : ℕ) : ℚ) := by
  decide!

theorem below_60 :
    roundDouble (roundDouble (((60 : ℕ) : ℚ) / 100 - 1 / (100 * 2 ^ 32)) * 100) < ((60 : ℕ) : ℚ) := by
  decide!

theorem ge_90_of_le (score total : Nat) (ht : 1 ≤ total) (h : 90 * total ≤ 100 * score) :
    (percentage score total).ge 90 = true := by
  simpa using percentage_ge_of_le 90 score total ht boundary_90 h

theorem ge_80_of_le (score total : Nat) (ht : 1 ≤ total) (h : 80 * total ≤ 100 * score) :
    (percentage score total).ge 80 = true := by
  simpa using percentage_ge_of_le 80 score total ht boundary_80 h

theorem ge_70_of_le (score total : Nat) (ht : 1 ≤ total) (h : 70 * total ≤ 100 * score) :
    (percentage score total).ge 70 = true := by
  simpa using percentage_ge_of_le 70 score total ht boundary_70 h

theorem ge_60_of_le (score total : Nat) (ht : 1 ≤ total) (h : 60 * total ≤ 100 * score) :
    (percentage score total).ge 60 = true := by
  simpa using percentage_ge_of_le 60 score total ht boundary_60 h

theorem ge_90_of_lt (score total : Nat) (ht : 1 ≤ total) (ht2 : total < 2 ^ 32)
    (h : 100 * score < 90 * total) : (percentage score total).ge 90 = false := by
  simpa using percentage_lt_of_lt 90 score total ht ht2 below_90 h

theorem ge_80_of_lt (score total : Nat) (ht : 1 ≤ total) (ht2 : total < 2 ^ 32)
    (h : 100 * score < 80 * total) : (percentage score total).ge 80 = false := by
  simpa using percentage_lt_of_lt 80 score total ht ht2 below_80 h

theorem ge_70_of_lt (score total : Nat) (ht : 1 ≤ total) (ht2 : total < 2 ^ 32)
    (h : 100 * score < 70 * total) : (percentage score total).ge 70 = false := by
  simpa using percentage_lt_of_lt 70 score total ht ht2 below_70 h

theorem ge_60_of_lt (score total : Nat) (ht : 1 ≤ total) (ht2 : total < 2 ^ 32)
    (h : 100 * score < 60 * total) : (percentage score total).ge 60 = false := by
  simpa using percentage_lt_of_lt 60 score total ht ht2 below_60 h

/-- C6. `showCelebrationScreen` picks its message and quote by tiers at 90,
80, 70 and 60 percent, each lower bound inclusive: for every score and every
total of at least 1 with `100 * score ≥ 90 * total` the top-tier pair is shown
(so for 9 of 10); with `100 * score ≥ 80 * total` the message is that of the
80 tier or of the one above, and likewise at 70 and 60; and for a total below
`2 ^ 32`, the largest length an array can have, the pair shown is exactly the
one of the band the exact ratio falls in, the lowest band below 60 percent. -/
theorem C6_celebration_tiers_inclusive (score total : Nat) (ht : 1 ≤ total) :
    (90 * total ≤ 100 * score →
      showCelebrationScreen score total =
        { score := score
          message := "Outstanding! You absolutely crushed it!"
          quote := "\"The expert in anything was once a beginner.\" - Helen Hayes" }) ∧
    (80 * total ≤ 100 * score →
      (showCelebrationScreen score total).message = "Outstanding! You absolutely crushed it!" ∨
      (showCelebrationScreen score total).message
        = "Excellent work! You really know your stuff!") ∧
    (70 * total ≤ 100 * score →
      (showCelebrationScreen score total).message = "Outstanding! You absolutely crushed it!" ∨
      (showCelebrationScreen score total).message
        = "Excellent work! You really know your stuff!" ∨
      (showCelebrationScreen score total).message
        = "Great job! You have a solid understanding!") ∧
    (60 * total ≤ 100 * score →
      (showCelebrationScreen score total).message = "Outstanding! You absolutely crushed it!" ∨
      (showCelebrationScreen score total).message
        = "Excellent work! You really know your stuff!" ∨
      (showCelebrationScreen score total).message
        = "Great job! You have a solid understanding!" ∨
      (showCelebrationScreen score total).message
        = "Good effort! Keep learning and improving!") ∧
    (total < 2 ^ 32 →
      (80 * total ≤ 100 * score → 100 * score < 90 * total →
        showCelebrationScreen score total =
          { score := score
            message := "Excellent work! You really know your stuff!"
            quote := "\"Success is the sum of small efforts, repeated day in and day out.\" - Robert Collier" }) ∧
      (70 * total ≤ 100 * score → 100 * score < 80 * total →
        showCelebrationScreen score total =
          { score := score
            message := "Great job! You have a solid understanding!"
            quote := "\"The beautiful thing about learning is that no one can take it away from you.\" - B.B. King" }) ∧
      (60 * total ≤ 100 * score → 100 * score < 70 * total →
        showCelebrationScreen score total =
          { score := score
            message := "Good effort! Keep learning and improving!"
            quote := "\"It does not matter how slowly you go as long as you do not stop.\" - Confucius" }) ∧
      (100 * score < 60 * total →
        showCelebrationScreen score total =
          { score := score
            message := "Nice try! Every attempt is a step forward!"
            quote := "\"Failure is simply the opportunity to begin again, this time more intelligently.\" - Henry Ford" })) := by
  refine ⟨?_, ?_, ?_, ?_, ?_⟩
  · intro h
    simp [showCelebrationScreen, ge_90_of_le score total ht h]
  · intro h
    by_cases h9 : (percentage score total).ge 90 = true
    · left; simp [showCelebrationScreen, h9]
    · right; simp [showCelebrationScreen, h9, ge_80_of_le score total ht h]
  · intro h
    by_cases h9 : (percentage score total).ge 90 = true
    · left; simp [showCelebrationScreen, h9]
    · by_cases h8 : (percentage score total).ge 80 = true
      · right; left; simp [showCelebrationScreen, h9, h8]
      · right; right; simp [showCelebrationScreen, h9, h8, ge_70_of_le score total ht h]
  · intro h
    by_cases h9 : (percentage score total).ge 90 = true
    · left; simp [showCelebrationScreen, h9]
    · by_cases h8 : (percentage score total).ge 80 = true
      · right; left; simp [showCelebrationScreen, h9, h8]
      · by_cases h7 : (percentage score total).ge 70 = true
        · right; right; left; simp [showCelebrationScreen, h9, h8, h7]
        · right; right; right
          simp [showCelebrationScreen, h9, h8, h7, ge_60_of_le score total ht h]
  · intro ht2
    refine ⟨?_, ?_, ?_, ?_⟩
    · intro h1 h2
      simp [showCelebrationScreen, ge_90_of_lt score total ht ht2 h2,
        ge_80_of_le score total ht h1]
    · intro h1 h2
      simp [showCelebrationScreen, ge_90_of_lt score total ht ht2 (by omega),
        ge_80_of_lt score total ht ht2 h2, ge_70_of_le score total ht h1]
    · intro h1 h2
      simp [showCelebrationScreen, ge_90_of_lt score total ht ht2 (by omega),
        ge_80_of_lt score total ht ht2 (by omega), ge_70_of_lt score total ht ht2 h2,
        ge_60_of_le score total ht h1]
    · intro h2
      simp [showCelebrationScreen, ge_90_of_lt score total ht ht2 (by omega),
        ge_80_of_lt score total ht ht2 (by omega), ge_70_of_lt score total ht ht2 (by omega),
        ge_60_of_lt score total ht ht2 h2]

theorem C6_celebration_tiers_inclusive_witness :
    1 ≤ 10 ∧ 90 * 10 ≤ 100 * 9 ∧
    showCelebrationScreen 9 10 =
      { score := 9
        message := "Outstanding! You absolutely crushed it!"
        quote := "\"The expert in anything was once a beginner.\" - Helen Hayes" } :=
  ⟨by decide, by decide, (C6_celebration_tiers_inclusive 9 10 (by decide)).1 (by decide)⟩

/-! ## The session id across quizzes -/

/-- C5 does not hold of the code. The second quiz is generated while
nobody is signed in and no save request is made for it, yet `currentQuizId`
still holds the id of the first quiz, and answering the second quiz sends a
save-attempt request under that id. -/
theorem C5_attempt_sent_for_anonymous_quiz :
    anonymousSecondQuiz.currentUser = none ∧
    anonymousSecondQuiz.session = some (sampleQuiz1, displayQuiz sampleQuiz1) ∧
    (∀ prompt, Effect.request (Request.saveQuiz prompt sampleQuiz1)
      ∉ (anonymousSecondQuiz.clickOption plainBrowser 0 0).effects) ∧
    anonymousSecondQuiz.currentQuizId = some 5 ∧
    (anonymousSecondQuiz.clickOption plainBrowser 0 0).effects.getLast?
      = some (Effect.request (Request.saveQuizAttempt 5 1)) := by
  refine ⟨by decide, by decide, ?_, by decide, by decide⟩
  intro prompt
  simp [anonymousSecondQuiz, generateClick, App.clickOption, authSubmit, logoutUser,
    refreshOnHistory, refreshOnProfile, refreshStart, refreshCatch, renderQuizHistory,
    showUserLoggedIn, isUserLoggedIn, App.displayQuiz, App.emit, App.init, showResultSummary,
    sendQuizAttempt, clickOption, displayQuiz, sampleQuiz1, sampleQuiz2, buttonsOf,
    allAnswered, plainBrowser]

/-! ## The cached identity -/

/-- C8 does not hold of the code. With an identity cached, a profile
check answered 401 shows the guest controls and the sign-in prompt but leaves
`currentUser` in place: `isUserLoggedIn` still returns true and the next
generation sends the save request. -/
theorem C8_identity_kept_after_401 :
    signedIn.currentUser = some sampleUser ∧
    (refreshSessionAndHistory signedIn ProfileResponse.unauthorized
      HistoryResponse.failed).loggedInUI = false ∧
    (refreshSessionAndHistory signedIn ProfileResponse.unauthorized
      HistoryResponse.failed).currentUser = some sampleUser ∧
    isUserLoggedIn (refreshSessionAndHistory signedIn ProfileResponse.unauthorized
      HistoryResponse.failed) = true ∧
    Effect.request (Request.saveQuiz (jsString "sums") sampleQuiz1) ∈
      (generateClick
        (refreshSessionAndHistory signedIn ProfileResponse.unauthorized HistoryResponse.failed)
        "sums" (GenerateResponse.ok sampleQuiz1) SaveResponse.notOk).effects := by
  refine ⟨by decide, by decide, by decide, by decide, ?_⟩
  have htake : (jsString "sums").take 200 = jsString "sums" := by decide
  simp [htake, signedIn, refreshSessionAndHistory, generateClick, authSubmit, refreshOnHistory,
    refreshOnProfile, refreshStart, refreshCatch, renderQuizHistory, showUserLoggedIn,
    isUserLoggedIn, App.displayQuiz, App.emit, App.init]

/-- C9. A login or signup answered 2xx puts the returned user in
`currentUser`, and a logout whose request went through puts `null` there,
before the refresh is entered, and each enters `refreshSessionAndHistory`
exactly once; an authentication response that is not 2xx enters no refresh
and leaves `currentUser` as it was. -/
theorem C9_auth_replaces_identity_then_refreshes_once (s : App) (loginMode ok : Bool)
    (user : User) (err : Option String) :
    ((authSubmit s loginMode (AuthResponse.accepted user)).effects =
        s.effects ++ [Effect.request (if loginMode then Request.login else Request.signup),
          Effect.refresh (some user), Effect.request Request.userProfile] ∧
      (authSubmit s loginMode (AuthResponse.accepted user)).currentUser = some user) ∧
    ((logoutUser s (Settled.resolved ok)).effects =
        s.effects ++ [Effect.request Request.logout, Effect.refresh none,
          Effect.request Request.userProfile] ∧
      (logoutUser s (Settled.resolved ok)).currentUser = none) ∧
    ((authSubmit s loginMode (AuthResponse.rejected err)).effects =
        s.effects ++ [Effect.request (if loginMode then Request.login else Request.signup)] ∧
      (authSubmit s loginMode (AuthResponse.rejected err)).currentUser = s.currentUser) := by
  refine ⟨⟨?_, ?_⟩, ⟨?_, ?_⟩, ⟨?_, ?_⟩⟩ <;>
    simp [authSubmit, logoutUser, refreshStart, App.emit]

/-! ## What the refresh and the attempt leave alone -/

theorem refreshStart_frame (s : App) :
    (refreshStart s).session = s.session ∧ (refreshStart s).container = s.container ∧
    (refreshStart s).celebration = s.celebration := by
  simp [refreshStart, App.emit]

theorem refreshCatch_frame (s : App) :
    (refreshCatch s).session = s.session ∧ (refreshCatch s).container = s.container ∧
    (refreshCatch s).celebration = s.celebration := by
  simp [refreshCatch, showUserLoggedIn]

theorem renderQuizHistory_frame (s : App) (list : Option (List HistoryEntry)) :
    (renderQuizHistory s list).session = s.session ∧
    (renderQuizHistory s list).container = s.container ∧
    (renderQuizHistory s list).celebration = s.celebration := by
  rcases list with _ | _ | ⟨e, es⟩ <;> simp [renderQuizHistory]

theorem refreshOnProfile_frame (s : App) (profile : ProfileResponse) :
    (refreshOnProfile s profile).session = s.session ∧
    (refreshOnProfile s profile).container = s.container ∧
    (refreshOnProfile s profile).celebration = s.celebration := by
  cases profile <;>
    simp [refreshOnProfile, refreshCatch, showUserLoggedIn, App.emit]

theorem refreshOnHistory_frame (s : App) (history : HistoryResponse) :
    (refreshOnHistory s history).session = s.session ∧
    (refreshOnHistory s history).container = s.container ∧
    (refreshOnHistory s history).celebration = s.celebration := by
  cases history with
  | failed => exact refreshCatch_frame s
  | notOk => exact ⟨rfl, rfl, rfl⟩
  | ok list => exact renderQuizHistory_frame s list

theorem attemptSettled_frame (s : App) (resp : Settled) :
    (attemptSettled s resp).session = s.session ∧
    (attemptSettled s resp).container = s.container ∧
    (attemptSettled s resp).celebration = s.celebration := by
  cases resp <;> simp [attemptSettled, refreshStart, App.emit]

/-- C10. Persistence failures do not block or undo the quiz flow: whatever
the save-new-session call does (2xx, non-2xx, network error), and whether or
not anyone is signed in, a successful generation ends with `displayQuiz` on
the generated questions and a fresh ledger for them; and whatever the
save-attempt call does, and whatever the refresh it starts receives, the
ledger, the content of the quiz container with its completion summary, and
the celebration shown stay as they were. -/
theorem C10_persistence_never_blocks (s : App) (topic : String) (quiz : List Question)
    (save : SaveResponse) (attempt : Settled) (profile : ProfileResponse)
    (history : HistoryResponse) (htopic : topic ≠ "") :
    ((generateClick s topic (GenerateResponse.ok quiz) save).effects.getLast?
        = some (Effect.displayQuiz quiz) ∧
      (generateClick s topic (GenerateResponse.ok quiz) save).session
        = some (quiz, displayQuiz quiz)) ∧
    ((attemptSettled s attempt).session = s.session ∧
      (attemptSettled s attempt).container = s.container ∧
      (attemptSettled s attempt).celebration = s.celebration) ∧
    ((refreshOnHistory (refreshOnProfile (attemptSettled s attempt) profile) history).session
        = s.session ∧
      (refreshOnHistory (refreshOnProfile (attemptSettled s attempt) profile) history).container
        = s.container ∧
      (refreshOnHistory (refreshOnProfile (attemptSettled s attempt) profile)
        history).celebration = s.celebration) := by
  refine ⟨⟨?_, ?_⟩, attemptSettled_frame s attempt, ?_⟩
  · simp only [generateClick, htopic, if_false]
    cases save <;> split_ifs <;> simp [App.displayQuiz, App.emit]
  · simp only [generateClick, htopic, if_false]
    cases save <;> split_ifs <;> simp [App.displayQuiz, App.emit]
  · obtain ⟨a1, a2, a3⟩ := attemptSettled_frame s attempt
    obtain ⟨b1, b2, b3⟩ := refreshOnProfile_frame (attemptSettled s attempt) profile
    obtain ⟨c1, c2, c3⟩ :=
      refreshOnHistory_frame (refreshOnProfile (attemptSettled s attempt) profile) history
    exact ⟨c1.trans (b1.trans a1), c2.trans (b2.trans a2), c3.trans (b3.trans a3)⟩

theorem C10_persistence_never_blocks_witness :
    "sums" ≠ "" ∧
    (generateClick signedIn "sums" (GenerateResponse.ok sampleQuiz1)
        SaveResponse.failed).session = some (sampleQuiz1, displayQuiz sampleQuiz1) :=
  ⟨by decide,
   (C10_persistence_never_blocks signedIn "sums" sampleQuiz1 SaveResponse.failed
      Settled.failed ProfileResponse.failed HistoryResponse.failed (by decide)).1.2⟩

/-! ## Five questions, four answered correctly -/

theorem allAnswered_iff_count (answers : List (Option Mark)) :
    allAnswered answers = true ↔ List.count none answers = 0 := by
  rw [allAnswered_iff, List.count_eq_zero]
  constructor
  · intro h hmem
    exact h none hmem rfl
  · intro h a ha e
    subst e
    exact h ha

/-- C7 as stated fails: with five questions answered four correctly and one
incorrectly the summary call is made on the fifth answer with score 4 of 5,
and the message shown for 4 of 5 is not the one of the 70 band. -/
theorem C7_message_is_not_the_70_band :
    summaryCalls plainBrowser sampleQuiz5 (displayQuiz sampleQuiz5) sampleClicks5
      = [none, none, none, none, some (4, 5)] ∧
    (showCelebrationScreen 4 5).message ≠ "Great job! You have a solid understanding!" ∧
    (showCelebrationScreen 4 5).message = "Excellent work! You really know your stuff!" := by
  refine ⟨by decide, by decide!, by decide!⟩

/-- Every entry of the ledger is `null`, `'correct'` or `'wrong'`. -/
theorem count_marks (l : List (Option Mark)) :
    List.count none l + List.count (some Mark.correct) l + List.count (some Mark.wrong) l
      = l.length := by
  induction l with
  | nil => rfl
  | cons a l ih =>
    rcases a with _ | m
    · simp only [List.count_cons, List.length_cons]
      simp
      omega
    · cases m
      · simp only [List.count_cons, List.length_cons]
        simp
        omega
      · simp only [List.count_cons, List.length_cons]
        simp
        omega

/-- Writing one mark removes at most one `null`. -/
theorem count_none_set (l : List (Option Mark)) (q : Nat) (m : Mark) :
    List.count none (l.set q (some m)) ≤ List.count none l ∧
    List.count none l ≤ List.count none (l.set q (some m)) + 1 := by
  induction l generalizing q with
  | nil => simp
  | cons a l ih =>
    cases q with
    | zero =>
      simp only [List.set_cons_zero, List.count_cons]
      simp
      split_ifs <;> omega
    | succ q =>
      simp only [List.set_cons_succ, List.count_cons]
      have := ih q
      omega

/-- One click removes at most one `null` from the ledger and adds none. -/
theorem clickOption_count_none (dom : Browser) (quiz : List Question)
    (st : QuizState) (q i : Nat) :
    List.count none (clickOption dom quiz st q i).1.answers ≤ List.count none st.answers ∧
    List.count none st.answers ≤ List.count none (clickOption dom quiz st q i).1.answers + 1 := by
  rcases clickOption_cases dom quiz st q i with
    h0 | ⟨item, option, _, _, _, h1, _⟩ | ⟨_, _, h2⟩
  · rw [h0]
    exact ⟨le_refl _, Nat.le_succ _⟩
  · rw [h1]
    exact count_none_set st.answers q _
  · rw [h2]
    exact ⟨le_refl _, Nat.le_succ _⟩

theorem runClicks_count_none (dom : Browser) (quiz : List Question)
    (cs : List (Nat × Nat)) : ∀ (st : QuizState),
    List.count none st.answers ≤ List.count none (runClicks dom quiz st cs).answers + cs.length := by
  induction cs with
  | nil => intro st; exact Nat.le_refl _
  | cons c cs ih =>
    intro st
    have h1 := (clickOption_count_none dom quiz st c.1 c.2).2
    have h2 := ih (clickOption dom quiz st c.1 c.2).1
    simp only [runClicks, List.length_cons]
    omega

/-- A complete ledger is left as it is by any further clicks. -/
theorem runClicks_complete (dom : Browser) (quiz : List Question)
    (cs : List (Nat × Nat)) (st : QuizState) (hinv : Inv quiz st)
    (hall : allAnswered st.answers = true) : runClicks dom quiz st cs = st := by
  induction cs with
  | nil => rfl
  | cons c cs ih =>
    simp only [runClicks, clickOption_complete dom quiz st c.1 c.2 hinv hall]
    exact ih

/-- C7, amended. For a five-question session whose ledger ends with four
entries `'correct'` and one `'wrong'`, whatever the order of the answers, the
summary is called exactly once; the call is `showResultSummary(4, 5)` and it
is made by the click that records the fifth answer, the one that finds a
single `null` left and leaves none; when the session is five clicks long that
is the fifth click and the four before it call nothing; and the celebration
screen shows the pair of the 80 band,
`Excellent work! You really know your stuff!`. -/
theorem C7_four_of_five_shows_80_band (dom : Browser)
    (quiz : List Question) (cs : List (Nat × Nat)) (hq : quiz.length = 5)
    (hc : List.count (some Mark.correct)
      (runClicks dom quiz (displayQuiz quiz) cs).answers = 4)
    (hw : List.count (some Mark.wrong)
      (runClicks dom quiz (displayQuiz quiz) cs).answers = 1) :
    callCount (summaryCalls dom quiz (displayQuiz quiz) cs) = 1 ∧
    (∀ (k : Nat) (ct : Nat × Nat),
      (summaryCalls dom quiz (displayQuiz quiz) cs)[k]? = some (some ct) →
      ct = (4, 5) ∧
      List.count none (runClicks dom quiz (displayQuiz quiz) (cs.take k)).answers = 1 ∧
      List.count none (runClicks dom quiz (displayQuiz quiz) (cs.take (k + 1))).answers = 0) ∧
    (cs.length = 5 →
      summaryCalls dom quiz (displayQuiz quiz) cs = [none, none, none, none, some (4, 5)]) ∧
    showCelebrationScreen 4 5 =
      { score := 4
        message := "Excellent work! You really know your stuff!"
        quote := "\"Success is the sum of small efforts, repeated day in and day out.\" - Robert Collier" } := by
  have hinvF := inv_runClicks dom quiz cs _ (inv_displayQuiz quiz)
  have hnoneF : List.count none (runClicks dom quiz (displayQuiz quiz) cs).answers = 0 := by
    have := count_marks (runClicks dom quiz (displayQuiz quiz) cs).answers
    rw [hinvF.1, hq, hc, hw] at this
    omega
  have hallF : allAnswered (runClicks dom quiz (displayQuiz quiz) cs).answers = true :=
    (allAnswered_iff_count _).mpr hnoneF
  have hstart : List.count none (displayQuiz quiz).answers = 5 := by
    simp [displayQuiz, hq]
  have h0 : allAnswered (displayQuiz quiz).answers = false := by
    by_contra hne
    have ht : allAnswered (displayQuiz quiz).answers = true := by simpa using hne
    rw [allAnswered_iff_count, hstart] at ht
    omega
  -- a call at click `k` carries the final ledger
  have hcall : ∀ (k : Nat) (ct : Nat × Nat),
      (summaryCalls dom quiz (displayQuiz quiz) cs)[k]? = some (some ct) →
      ct = (4, 5) ∧
      List.count none (runClicks dom quiz (displayQuiz quiz) (cs.take k)).answers = 1 ∧
      List.count none (runClicks dom quiz (displayQuiz quiz) (cs.take (k + 1))).answers
        = 0 := by
    intro k ct h
    rw [summaryCalls_getElem?] at h
    rcases hck : cs[k]? with _ | click
    · rw [hck] at h; simp at h
    · rw [hck] at h
      simp only [Option.map_some', Option.some.injEq] at h
      have hinv0 := inv_runClicks dom quiz (cs.take k) _ (inv_displayQuiz quiz)
      have hinv1 := inv_clickOption dom quiz _ click.1 click.2 hinv0
      obtain ⟨h1, h2, hall, _⟩ := clickOption_call dom quiz _ _ _ ct.1 ct.2 h
      have hbefore := clickOption_call_from_incomplete dom quiz _ _ _ ct hinv0 h
      have hstep := clickOption_count_none dom quiz
        (runClicks dom quiz (displayQuiz quiz) (cs.take k)) click.1 click.2
      have hsucc := runClicks_take_succ dom quiz cs (displayQuiz quiz) k click hck
      have hfin : runClicks dom quiz (displayQuiz quiz) cs
          = (clickOption dom quiz (runClicks dom quiz (displayQuiz quiz) (cs.take k))
              click.1 click.2).1 := by
        conv_lhs => rw [← List.take_append_drop (k + 1) cs]
        rw [runClicks_append, hsucc]
        exact runClicks_complete dom quiz _ _ hinv1 hall
      rw [← hfin] at h1 h2 hall hstep
      rw [hsucc, ← hfin]
      have hb1 : List.count none
          (runClicks dom quiz (displayQuiz quiz) (cs.take k)).answers ≠ 0 := by
        intro hz
        rw [(allAnswered_iff_count _).mpr hz] at hbefore
        exact absurd hbefore (by decide)
      refine ⟨?_, by omega, hnoneF⟩
      rw [correctCount_eq_count, hc] at h1
      rw [hinvF.1, hq] at h2
      exact Prod.ext h1 h2
  have hone : callCount (summaryCalls dom quiz (displayQuiz quiz) cs) = 1 :=
    summaryCalls_eq_one dom quiz cs _ (inv_displayQuiz quiz) h0 hallF
  refine ⟨hone, hcall, ?_, by decide!⟩
  intro h5
  -- after `k` clicks at least `5 - k` entries are still `null`
  have hleft : ∀ k, 5 ≤ List.count none
      (runClicks dom quiz (displayQuiz quiz) (cs.take k)).answers + k := by
    intro k
    have h := runClicks_count_none dom quiz (cs.take k) (displayQuiz quiz)
    rw [hstart] at h
    have hk : (cs.take k).length ≤ k := by
      rw [List.length_take]
      exact Nat.min_le_left _ _
    omega
  have hearly : ∀ k, k < 4 → (summaryCalls dom quiz (displayQuiz quiz) cs)[k]? = some none := by
    intro k hk
    have hlen := summaryCalls_length dom quiz cs (displayQuiz quiz)
    have hlt : k < (summaryCalls dom quiz (displayQuiz quiz) cs).length := by omega
    rw [List.getElem?_eq_getElem hlt]
    rcases hev : (summaryCalls dom quiz (displayQuiz quiz) cs)[k] with _ | ct
    · rfl
    · exfalso
      have hget : (summaryCalls dom quiz (displayQuiz quiz) cs)[k]? = some (some ct) := by
        rw [List.getElem?_eq_getElem hlt, hev]
      have := (hcall k ct hget).2.2
      have := hleft (k + 1)
      omega
  have hlast : (summaryCalls dom quiz (displayQuiz quiz) cs)[4]? = some (some (4, 5)) := by
    have hb : allAnswered (runClicks dom quiz (displayQuiz quiz) (cs.take 4)).answers
        = false := by
      by_contra hne
      have ht : allAnswered (runClicks dom quiz (displayQuiz quiz) (cs.take 4)).answers
          = true := by simpa using hne
      rw [allAnswered_iff_count] at ht
      have := hleft 4
      omega
    have hc4 : cs[4]? = some cs[4] := List.getElem?_eq_getElem (by omega)
    have htake : cs.take (4 + 1) = cs := by
      have h5b : 4 + 1 = cs.length := by omega
      rw [h5b]
      exact List.take_length cs
    have ha : allAnswered (clickOption dom quiz
        (runClicks dom quiz (displayQuiz quiz) (cs.take 4)) (cs[4]).1 (cs[4]).2).1.answers
        = true := by
      rw [← runClicks_take_succ dom quiz cs _ 4 cs[4] hc4, htake]
      exact hallF
    obtain ⟨ct, hct⟩ := clickOption_completing dom quiz _ _ _ hb ha
    have hget : (summaryCalls dom quiz (displayQuiz quiz) cs)[4]? = some (some ct) := by
      rw [summaryCalls_getElem?, hc4]
      simp only [Option.map_some', hct]
    rw [hget, (hcall 4 ct hget).1]
  apply List.ext_getElem?
  intro k
  by_cases hk : k < 5
  · by_cases hk4 : k < 4
    · rw [hearly k hk4]
      interval_cases k <;> rfl
    · have hk5 : k = 4 := by omega
      subst hk5
      rw [hlast]
      rfl
  · rw [List.getElem?_eq_none (by
      rw [summaryCalls_length]
      omega)]
    rw [List.getElem?_eq_none (by simp; omega)]

theorem C7_four_of_five_shows_80_band_witness :
    sampleQuiz5.length = 5 ∧
    (runClicks plainBrowser sampleQuiz5 (displayQuiz sampleQuiz5) sampleClicks5).answers
      = [some Mark.correct, some Mark.correct, some Mark.correct, some Mark.correct,
         some Mark.wrong] ∧
    sampleClicks5.length = 5 ∧
    summaryCalls plainBrowser sampleQuiz5 (displayQuiz sampleQuiz5) sampleClicks5
      = [none, none, none, none, some (4, 5)] :=
  ⟨by decide, by decide, by decide,
   (C7_four_of_five_shows_80_band plainBrowser sampleQuiz5 sampleClicks5 (by decide)
      (by decide) (by decide)).2.2.1 (by decide)⟩

/-! ## Saving a new session -/

/-- C11. After a successful generation the handler sends the save-new-session
request if and only if `currentUser` is not `null`, and then once; it sets
`currentQuizId` to the returned `quiz_id` exactly when that request was sent
and answered 2xx, and leaves `currentQuizId` as it was in every other case. -/
theorem C11_save_request_iff_identity (s : App) (topic : String) (quiz : List Question)
    (save : SaveResponse) (htopic : topic ≠ "") :
    ((generateClick s topic (GenerateResponse.ok quiz) save).effects.countP Effect.isSaveQuiz
        = s.effects.countP Effect.isSaveQuiz + (if s.currentUser = none then 0 else 1)) ∧
    (s.currentUser ≠ none →
      Effect.request (Request.saveQuiz ((jsString topic).take 200) quiz)
        ∈ (generateClick s topic (GenerateResponse.ok quiz) save).effects) ∧
    (∀ quiz_id, s.currentUser ≠ none → save = SaveResponse.ok quiz_id →
      (generateClick s topic (GenerateResponse.ok quiz) save).currentQuizId = quiz_id) ∧
    ((s.currentUser = none ∨ save = SaveResponse.notOk ∨ save = SaveResponse.failed) →
      (generateClick s topic (GenerateResponse.ok quiz) save).currentQuizId
        = s.currentQuizId) := by
  refine ⟨?_, ?_, ?_, ?_⟩
  · rcases hu : s.currentUser with _ | u
    · simp [generateClick, htopic, isUserLoggedIn, hu, App.displayQuiz, App.emit,
        Effect.isSaveQuiz]
    · cases save <;>
        simp [generateClick, htopic, isUserLoggedIn, hu, App.displayQuiz, App.emit,
          Effect.isSaveQuiz, refreshStart, List.countP_append]
  · intro hu
    obtain ⟨u, hu2⟩ := Option.ne_none_iff_exists'.mp hu
    cases save <;>
      simp [generateClick, htopic, isUserLoggedIn, hu2, App.displayQuiz, App.emit,
        refreshStart]
  · intro quiz_id hu hs
    obtain ⟨u, hu2⟩ := Option.ne_none_iff_exists'.mp hu
    subst hs
    simp [generateClick, htopic, isUserLoggedIn, hu2, App.displayQuiz, App.emit, refreshStart]
  · intro h
    rcases hu : s.currentUser with _ | u
    · simp [generateClick, htopic, isUserLoggedIn, hu, App.displayQuiz, App.emit]
    · rcases h with h | h | h
      · rw [hu] at h; cases h
      · subst h
        simp [generateClick, htopic, isUserLoggedIn, hu, App.displayQuiz, App.emit]
      · subst h
        simp [generateClick, htopic, isUserLoggedIn, hu, App.displayQuiz, App.emit]

theorem C11_save_request_iff_identity_witness :
    "sums" ≠ "" ∧ signedIn.currentUser ≠ none ∧
    (generateClick signedIn "sums" (GenerateResponse.ok sampleQuiz1)
      (SaveResponse.ok (some 7))).currentQuizId = some 7 :=
  ⟨by decide, by decide,
   (C11_save_request_iff_identity signedIn "sums" sampleQuiz1 (SaveResponse.ok (some 7))
      (by decide)).2.2.1 (some 7) (by decide) rfl⟩

/-! ## Review of a stored quiz -/

theorem filter_isScore_reviewCards (questions : List Question)
    (userAnswers : Option (List (Option String))) :
    (questions.enum.map fun p =>
      Block.reviewCard p.1 p.2 ((userAnswers.bind fun l => l.get? p.1).join)).filter
        Block.isScore = [] := by
  rw [List.filter_eq_nil_iff]
  intro b hb
  obtain ⟨p, _, rfl⟩ := List.mem_map.mp hb
  simp [Block.isScore]

/-- C12. Review mode trusts the stored result: for every question list, every
`userAnswers` (absent or of any length), every score and every quiz id,
`displayQuizWithAnswers` with `isComplete` true shows one score block, holding
the given score and `questions.length` (so `Score: 7 out of 10 correct!` for 7
and ten questions), whatever `userAnswers` is; with `isComplete` false it shows
no score block; and neither it nor `loadPastQuiz` sends a request other than
the detail fetch, so no save-attempt request. -/
theorem C12_review_shows_stored_score (s : App) (questions : List Question)
    (userAnswers : Option (List (Option String))) (score : Nat) (quizId : Option Nat)
    (isComplete : Bool) (quizID : Nat) (resp : DetailResponse) :
    ((displayQuizWithAnswers s questions userAnswers true score quizId).container.filter
        Block.isScore = [Block.reviewScore score questions.length]) ∧
    ((displayQuizWithAnswers s questions userAnswers true score quizId).container.getLast?
        = some (Block.reviewScore score questions.length)) ∧
    ((displayQuizWithAnswers s questions userAnswers false score quizId).container.filter
        Block.isScore = []) ∧
    ((displayQuizWithAnswers s questions userAnswers isComplete score quizId).effects
        = s.effects) ∧
    ((loadPastQuiz s quizID resp).effects.countP Effect.isSaveAttempt
        = s.effects.countP Effect.isSaveAttempt) ∧
    reviewScoreText 7 10 = "Score: 7 out of 10 correct!" := by
  refine ⟨?_, ?_, ?_, rfl, ?_, by decide⟩
  · simp only [displayQuizWithAnswers, if_true, List.filter_append,
      filter_isScore_reviewCards]
    rfl
  · simp [displayQuizWithAnswers]
  · simp only [displayQuizWithAnswers, Bool.false_eq_true, if_false, List.append_nil,
      filter_isScore_reviewCards]
  · cases resp <;>
      simp [loadPastQuiz, displayQuizWithAnswers, App.emit, List.countP_append,
        Effect.isSaveAttempt]

/-! ## The container of a live session -/

theorem removeSummary_of_no_summary (blocks : List Block)
    (h : ∀ b ∈ blocks, b.isSummary = false) : removeSummary blocks = blocks := by
  induction blocks with
  | nil => rfl
  | cons b bs ih =>
    have hb : b.isSummary = false := h b (List.mem_cons_self _ _)
    simp only [removeSummary, hb, Bool.false_eq_true, if_false]
    rw [ih fun c hc => h c (List.mem_cons_of_mem _ hc)]

theorem removeSummary_questionCards (quiz : List Question) :
    removeSummary (questionCards quiz) = questionCards quiz := by
  apply removeSummary_of_no_summary
  intro b hb
  obtain ⟨p, _, rfl⟩ := List.mem_map.mp hb
  rfl

theorem showResultSummary_session (s : App) (c t : Nat) :
    (showResultSummary s c t).session = s.session := by
  simp only [showResultSummary, sendQuizAttempt, App.emit]
  rcases s.currentQuizId with _ | _ | n <;> rfl

theorem showResultSummary_container (s : App) (c t : Nat) :
    (showResultSummary s c t).container
      = removeSummary s.container ++ [Block.summaryScore c t] := by
  simp only [showResultSummary, sendQuizAttempt, App.emit]
  rcases s.currentQuizId with _ | _ | n <;> rfl

/-- A page click runs the handler of the live session on its ledger. -/
theorem page_click_session (dom : Browser) (s : App) (quiz : List Question)
    (st : QuizState) (q i : Nat) (hs : s.session = some (quiz, st)) :
    (s.clickOption dom q i).session
      = some (quiz, (clickOption dom quiz st q i).1) := by
  simp only [App.clickOption, hs]
  rcases hev : (clickOption dom quiz st q i).2 with _ | ⟨c, t⟩
  · rfl
  · simp only [showResultSummary_session]

theorem page_click_container (dom : Browser) (s : App) (quiz : List Question)
    (st : QuizState) (q i : Nat) (hs : s.session = some (quiz, st)) :
    (s.clickOption dom q i).container
      = match (clickOption dom quiz st q i).2 with
        | none => s.container
        | some (c, t) => removeSummary s.container ++ [Block.summaryScore c t] := by
  simp only [App.clickOption, hs]
  rcases hev : (clickOption dom quiz st q i).2 with _ | ⟨c, t⟩
  · rfl
  · simp only [showResultSummary_container]

theorem pageInv_displayQuiz (s : App) (quiz : List Question) :
    PageInv quiz (s.displayQuiz quiz) := by
  refine ⟨displayQuiz quiz, rfl, inv_displayQuiz quiz, Or.inl ⟨?_, rfl⟩⟩
  cases quiz with
  | nil => right; rfl
  | cons a as => left; simp [displayQuiz, allAnswered, List.replicate_succ]

theorem pageInv_click (dom : Browser) (quiz : List Question) (s : App)
    (q i : Nat) (h : PageInv quiz s) : PageInv quiz (s.clickOption dom q i) := by
  obtain ⟨st, hs, hinv, hcon⟩ := h
  have hinv2 := inv_clickOption dom quiz st q i hinv
  refine ⟨(clickOption dom quiz st q i).1, page_click_session dom s quiz st q i hs,
    hinv2, ?_⟩
  rw [page_click_container dom s quiz st q i hs]
  rcases hcon with ⟨hopen, hc⟩ | ⟨hall, hne, hc⟩
  · rcases hev : (clickOption dom quiz st q i).2 with _ | ⟨c, t⟩
    · left
      refine ⟨?_, hc⟩
      rcases hopen with hopen | hnil
      · left
        by_contra hne
        have hall : allAnswered (clickOption dom quiz st q i).1.answers = true := by
          simpa using hne
        obtain ⟨ct, hct⟩ := clickOption_completing dom quiz st q i hopen hall
        rw [hev] at hct
        cases hct
      · right; exact hnil
    · right
      obtain ⟨h1, h2, hall, _⟩ := clickOption_call dom quiz st q i c t hev
      have hne : quiz ≠ [] := by
        intro hnil
        subst hnil
        simp [clickOption] at hev
      refine ⟨hall, hne, ?_⟩
      simp only [hc, removeSummary_questionCards]
      rw [h1, h2, hinv2.1]
  · right
    rw [clickOption_complete dom quiz st q i hinv hall]
    exact ⟨hall, hne, hc⟩

theorem pageInv_runClicks (dom : Browser) (quiz : List Question)
    (cs : List (Nat × Nat)) : ∀ (s : App), PageInv quiz s →
    PageInv quiz (App.runClicks dom s cs) := by
  induction cs with
  | nil => intro s h; exact h
  | cons c cs ih => intro s h; exact ih _ (pageInv_click dom quiz s c.1 c.2 h)

/-- The ledger of the page after clicks is the ledger of the session run. -/
theorem page_run_session (dom : Browser) (quiz : List Question)
    (cs : List (Nat × Nat)) : ∀ (s : App) (st : QuizState), s.session = some (quiz, st) →
    (App.runClicks dom s cs).session = some (quiz, runClicks dom quiz st cs) := by
  induction cs with
  | nil => intro s st h; exact h
  | cons c cs ih =>
    intro s st h
    exact ih _ _ (page_click_session dom s quiz st c.1 c.2 h)

/-! ## The exported text -/

theorem innerText_questionCards (cardText : Block → Option Mark → String)
    (ledger : List (Option Mark)) (quiz : List Question) :
    (questionCards quiz).map (Block.innerText cardText ledger)
      = quiz.enum.map fun p =>
          cardText (Block.questionCard p.1 p.2) (ledger.getD p.1 none) := by
  simp only [questionCards, List.map_map]
  rfl

/-- C13 as stated fails: after the one question of a quiz is answered, the
exported text holds the text of the summary block after the text of the
question card, so it is not made of the question blocks alone. -/
theorem C13_export_holds_summary_block :
    allAnswered completedSample.ledger = true ∧
    exportBlocks plainCardText completedSample
      = ["1\n2 + 2 = ?\nA.\n4\nB.\n5\n‚úÖ\nCorrect!", "You got 1 out of 1 correct!"] ∧
    quizText plainCardText completedSample
      = "1\n2 + 2 = ?\nA.\n4\nB.\n5\n‚úÖ\nCorrect!\n\nYou got 1 out of 1 correct!" ∧
    quizText plainCardText completedSample ≠
      "\n\n".intercalate
        ((questionCards sampleQuiz1).map
          (Block.innerText plainCardText completedSample.ledger)) := by
  refine ⟨by decide, by decide, by decide, by decide⟩

/-- C13, amended. For a completed session the text built by the copy and the
download handler is made of the texts of the question cards, one per question
in question order, followed by the text of the score block (`You got c out of
n correct!` once a live quiz is completed, `Score: s out of n correct!` for a
stored quiz shown as complete), all separated by a blank line. -/
theorem C13_export_cards_then_score (dom : Browser)
    (cardText : Block → Option Mark → String) (s : App) (quiz : List Question)
    (cs : List (Nat × Nat)) (questions : List Question)
    (userAnswers : Option (List (Option String))) (score : Nat) (quizId : Option Nat)
    (hne : quiz ≠ [])
    (hall : allAnswered (App.runClicks dom (s.displayQuiz quiz) cs).ledger = true) :
    (exportBlocks cardText (App.runClicks dom (s.displayQuiz quiz) cs)
      = (quiz.enum.map fun p =>
          cardText (Block.questionCard p.1 p.2)
            ((App.runClicks dom (s.displayQuiz quiz) cs).ledger.getD p.1 none))
        ++ [summaryText (correctCount (App.runClicks dom (s.displayQuiz quiz) cs).ledger)
              quiz.length]) ∧
    (quizText cardText (App.runClicks dom (s.displayQuiz quiz) cs)
      = "\n\n".intercalate
          ((quiz.enum.map fun p =>
              cardText (Block.questionCard p.1 p.2)
                ((App.runClicks dom (s.displayQuiz quiz) cs).ledger.getD p.1 none))
            ++ [summaryText
                  (correctCount (App.runClicks dom (s.displayQuiz quiz) cs).ledger)
                  quiz.length])) ∧
    (exportBlocks cardText (displayQuizWithAnswers s questions userAnswers true score quizId)
      = (questions.enum.map fun p =>
          cardText (Block.reviewCard p.1 p.2 ((userAnswers.bind fun l => l.get? p.1).join))
            none)
        ++ [reviewScoreText score questions.length]) := by
  have hblocks : exportBlocks cardText (App.runClicks dom (s.displayQuiz quiz) cs)
      = (quiz.enum.map fun p =>
          cardText (Block.questionCard p.1 p.2)
            ((App.runClicks dom (s.displayQuiz quiz) cs).ledger.getD p.1 none))
        ++ [summaryText (correctCount (App.runClicks dom (s.displayQuiz quiz) cs).ledger)
              quiz.length] := by
    obtain ⟨st, hs, _, hcon⟩ :=
      pageInv_runClicks dom quiz cs _ (pageInv_displayQuiz s quiz)
    have hled : (App.runClicks dom (s.displayQuiz quiz) cs).ledger = st.answers := by
      simp only [App.ledger, hs]
    rw [hled] at hall ⊢
    rcases hcon with ⟨hopen, _⟩ | ⟨_, _, hc⟩
    · rcases hopen with hopen | hnil
      · rw [hall] at hopen
        exact absurd hopen (by decide)
      · exact absurd hnil hne
    · simp only [exportBlocks, hc, List.map_append, innerText_questionCards, hled]
      rfl
  refine ⟨hblocks, ?_, ?_⟩
  · simp only [quizText, hblocks]
  · simp only [exportBlocks, displayQuizWithAnswers, if_true, List.map_append, List.map_map]
    rfl

theorem C13_export_cards_then_score_witness :
    sampleQuiz1 ≠ [] ∧
    allAnswered (App.runClicks plainBrowser (App.init.displayQuiz sampleQuiz1)
      [(0, 1)]).ledger = true ∧
    quizText plainCardText (App.runClicks plainBrowser (App.init.displayQuiz sampleQuiz1)
      [(0, 1)])
      = "1\n2 + 2 = ?\nA.\n4\nB.\n5\n‚ùå\nWrong!\n\nYou got 0 out of 1 correct!" :=
  ⟨by decide, by decide,
   ((C13_export_cards_then_score plainBrowser plainCardText App.init sampleQuiz1 [(0, 1)]
      [] none 0 none (by decide) (by decide)).2.1).trans (by decide)⟩

/-! ## The order of the answers does not matter -/

theorem clickOption_state (dom : Browser) (quiz : List Question)
    (st : QuizState) (q i : Nat) :
    (clickOption dom quiz st q i).1 =
      { answers :=
          match writes dom quiz st q i with
          | none => st.answers
          | some m => st.answers.set q (some m)
        answered := if flags quiz st q i then st.answered.set q true else st.answered } := by
  rcases hq : quiz[q]? with _ | item
  · simp [clickOption, writes, flags, hq]
  · rcases hi : (buttonsOf item)[i]? with _ | option
    · simp [clickOption, writes, flags, hq, hi]
    · rcases ha : st.answered.getD q false with _ | _
      · rcases hf : dom.hasFeedback quiz q with _ | _
        · simp [clickOption, writes, flags, hq, hi, ha, hf, -List.getD_eq_getElem?_getD]
        · simp only [clickOption, writes, flags, List.get?_eq_getElem?, hq, hi, ha, hf,
            Bool.false_eq_true, if_false, if_true, Bool.not_false]
          split_ifs <;> rfl
      · simp [clickOption, writes, flags, hq, hi, ha, -List.getD_eq_getElem?_getD]

/-- What a handler writes depends on the flag of its own question only. -/
theorem writes_congr (dom : Browser) (quiz : List Question)
    (st st2 : QuizState) (q i : Nat)
    (h : st2.answered.getD q false = st.answered.getD q false) :
    writes dom quiz st2 q i = writes dom quiz st q i := by
  simp only [writes, h]

theorem flags_congr (quiz : List Question) (st st2 : QuizState) (q i : Nat)
    (h : st2.answered.getD q false = st.answered.getD q false) :
    flags quiz st2 q i = flags quiz st q i := by
  simp only [flags, h]

/-- A click on another question leaves the flag of this one as it was. -/
theorem clickOption_flag_other (dom : Browser) (quiz : List Question)
    (st : QuizState) (q r j : Nat) (hne : r ≠ q) :
    (clickOption dom quiz st r j).1.answered.getD q false = st.answered.getD q false := by
  rw [clickOption_state]
  simp only
  split_ifs
  · simp [List.getD_eq_getElem?_getD, List.getElem?_set, hne]
  · rfl

theorem writes_after_other (dom : Browser) (quiz : List Question)
    (st : QuizState) (q i r j : Nat) (hne : r ≠ q) :
    writes dom quiz (clickOption dom quiz st r j).1 q i = writes dom quiz st q i :=
  writes_congr dom quiz st _ q i (clickOption_flag_other dom quiz st q r j hne)

theorem flags_after_other (dom : Browser) (quiz : List Question)
    (st : QuizState) (q i r j : Nat) (hne : r ≠ q) :
    flags quiz (clickOption dom quiz st r j).1 q i = flags quiz st q i :=
  flags_congr quiz st _ q i (clickOption_flag_other dom quiz st q r j hne)

/-- Clicks on two different questions commute. -/
theorem clickOption_comm (dom : Browser) (quiz : List Question)
    (st : QuizState) (a b : Nat × Nat) (hne : a.1 ≠ b.1) :
    (clickOption dom quiz (clickOption dom quiz st a.1 a.2).1 b.1 b.2).1
      = (clickOption dom quiz (clickOption dom quiz st b.1 b.2).1 a.1 a.2).1 := by
  rw [clickOption_state dom quiz (clickOption dom quiz st a.1 a.2).1,
    clickOption_state dom quiz (clickOption dom quiz st b.1 b.2).1,
    writes_after_other dom quiz st b.1 b.2 a.1 a.2 hne,
    writes_after_other dom quiz st a.1 a.2 b.1 b.2 (Ne.symm hne),
    flags_after_other dom quiz st b.1 b.2 a.1 a.2 hne,
    flags_after_other dom quiz st a.1 a.2 b.1 b.2 (Ne.symm hne),
    clickOption_state dom quiz st a.1 a.2, clickOption_state dom quiz st b.1 b.2]
  simp only [QuizState.mk.injEq]
  constructor
  · rcases writes dom quiz st a.1 a.2 with _ | m <;>
      rcases writes dom quiz st b.1 b.2 with _ | n
    · rfl
    · rfl
    · rfl
    · exact List.set_comm _ _ _ hne
  · by_cases ha : flags quiz st a.1 a.2 = true <;>
      by_cases hb : flags quiz st b.1 b.2 = true
    · simp only [ha, hb, if_true]
      exact List.set_comm _ _ _ hne
    · simp [ha, hb]
    · simp [ha, hb]
    · simp [ha, hb]

/-- Answering the same questions with the same options in another order
leaves the same ledger. -/
theorem runClicks_perm (dom : Browser) (quiz : List Question)
    {cs cs2 : List (Nat × Nat)} (h : cs.Perm cs2) (nd : (cs.map Prod.fst).Nodup) :
    ∀ (st : QuizState), runClicks dom quiz st cs = runClicks dom quiz st cs2 := by
  induction h with
  | nil => intro st; rfl
  | cons a _ ih =>
    intro st
    simp only [List.map_cons, List.nodup_cons] at nd
    simp only [runClicks]
    exact ih nd.2 _
  | swap a b l =>
    intro st
    simp only [List.map_cons, List.nodup_cons, List.mem_cons, not_or] at nd
    simp only [runClicks]
    rw [clickOption_comm dom quiz st b a nd.1.1]
  | trans h1 _ ih1 ih2 =>
    intro st
    exact (ih1 nd st).trans (ih2 ((h1.map Prod.fst).nodup_iff.mp nd) st)

theorem questionCards_getElem? (quiz : List Question) (k : Nat) (item : Question)
    (h : quiz[k]? = some item) :
    (questionCards quiz)[k]? = some (Block.questionCard k item) := by
  simp [questionCards, List.getElem?_enum, h]

/-- The container of a live session is decided by its ledger. -/
theorem container_of_ledger (quiz : List Question) (s s2 : App) (st : QuizState)
    (h : PageInv quiz s) (h2 : PageInv quiz s2) (hs : s.session = some (quiz, st))
    (hs2 : s2.session = some (quiz, st)) : s.container = s2.container := by
  obtain ⟨st1, e1, _, hcon⟩ := h
  obtain ⟨st2, e2, _, hcon2⟩ := h2
  rw [hs] at e1
  rw [hs2] at e2
  cases e1
  cases e2
  rcases hcon with ⟨hopen, hc⟩ | ⟨hall, hne, hc⟩ <;>
    rcases hcon2 with ⟨hopen2, hc2⟩ | ⟨hall2, hne2, hc2⟩
  · rw [hc, hc2]
  · rcases hopen with hopen | hnil
    · rw [hall2] at hopen
      exact absurd hopen (by decide)
    · exact absurd hnil hne2
  · rcases hopen2 with hopen2 | hnil
    · rw [hall] at hopen2
      exact absurd hopen2 (by decide)
    · exact absurd hnil hne
  · rw [hc, hc2]

/-- C14. For every quiz and every sequence of answer clicks, block `k` of the
export is the text of the card of question `k`, so the question blocks stand
in question order whatever the order of the answers; and two sequences that
answer the same questions with the same options in a different order export
the same blocks. -/
theorem C14_export_in_question_order (dom : Browser)
    (cardText : Block → Option Mark → String) (s : App) (quiz : List Question)
    (cs cs2 : List (Nat × Nat)) :
    (∀ k item, quiz[k]? = some item →
      (exportBlocks cardText (App.runClicks dom (s.displayQuiz quiz) cs))[k]?
        = some (cardText (Block.questionCard k item)
            ((App.runClicks dom (s.displayQuiz quiz) cs).ledger.getD k none))) ∧
    (cs.Perm cs2 → (cs.map Prod.fst).Nodup →
      exportBlocks cardText (App.runClicks dom (s.displayQuiz quiz) cs)
        = exportBlocks cardText (App.runClicks dom (s.displayQuiz quiz) cs2)) := by
  constructor
  · intro k item hk
    obtain ⟨st, _, _, hcon⟩ :=
      pageInv_runClicks dom quiz cs _ (pageInv_displayQuiz s quiz)
    have hklt : k < (questionCards quiz).length := by
      have := (List.getElem?_eq_some_iff.mp hk).1
      simpa [questionCards] using this
    have hcard : (App.runClicks dom (s.displayQuiz quiz) cs).container[k]?
        = some (Block.questionCard k item) := by
      rcases hcon with ⟨_, hc⟩ | ⟨_, _, hc⟩
      · rw [hc]
        exact questionCards_getElem? quiz k item hk
      · rw [hc, List.getElem?_append_left hklt]
        exact questionCards_getElem? quiz k item hk
    simp only [exportBlocks, List.getElem?_map, hcard, Option.map_some', Block.innerText]
  · intro hperm hnd
    have h1 := page_run_session dom quiz cs (s.displayQuiz quiz) (displayQuiz quiz) rfl
    have h2 := page_run_session dom quiz cs2 (s.displayQuiz quiz) (displayQuiz quiz) rfl
    rw [← runClicks_perm dom quiz hperm hnd] at h2
    have hc := container_of_ledger quiz _ _ _
      (pageInv_runClicks dom quiz cs _ (pageInv_displayQuiz s quiz))
      (pageInv_runClicks dom quiz cs2 _ (pageInv_displayQuiz s quiz)) h1 h2
    simp only [exportBlocks, App.ledger, h1, h2, hc]

theorem C14_export_in_question_order_witness :
    [(4, 1), (0, 0), (2, 0)].Perm [(2, 0), (4, 1), (0, 0)] ∧
    exportBlocks plainCardText
        (App.runClicks plainBrowser (App.init.displayQuiz sampleQuiz5)
          [(4, 1), (0, 0), (2, 0)])
      = exportBlocks plainCardText
        (App.runClicks plainBrowser (App.init.displayQuiz sampleQuiz5)
          [(2, 0), (4, 1), (0, 0)]) :=
  ⟨by decide,
   (C14_export_in_question_order plainBrowser plainCardText App.init sampleQuiz5
      [(4, 1), (0, 0), (2, 0)] [(2, 0), (4, 1), (0, 0)]).2 (by decide) (by decide)⟩

/-! ## The history list -/

/-- C15 as stated fails: with a list on display, a refresh whose profile check
succeeds and whose history fetch is answered with a status that is not 2xx
leaves that list on display; it does not show the empty-history state. -/
theorem C15_history_kept_on_non_2xx :
    withHistory.history = HistoryView.items sampleRows ∧
    (refreshSessionAndHistory withHistory (ProfileResponse.ok sampleUser)
      HistoryResponse.notOk).history = HistoryView.items sampleRows ∧
    (refreshSessionAndHistory withHistory (ProfileResponse.ok sampleUser)
      HistoryResponse.notOk).history ≠ HistoryView.emptyHistory := by
  refine ⟨by decide, by decide, by decide⟩

/-- C15, amended. When the profile check succeeds but the history fetch is
answered with a status that is not 2xx, `refreshSessionAndHistory` does not
render the history: the list on display afterwards is the list that was on
display before, whatever it was. -/
theorem C15_history_unchanged_on_non_2xx (s : App) (userData : User) :
    (refreshSessionAndHistory s (ProfileResponse.ok userData) HistoryResponse.notOk).history
      = s.history ∧
    (refreshSessionAndHistory s (ProfileResponse.ok userData)
      HistoryResponse.notOk).currentUser = some userData := by
  constructor <;> rfl

/-- C16. For every non-empty list of entries, `renderQuizHistory` replaces
the list on display, whatever it was, by one row per entry, in the order of
the entries: row `k` carries the title of entry `k` and its click loads the
quiz with the `quiz_id` of entry `k`. -/
theorem C16_history_rows_in_store_order (s : App) (e : HistoryEntry)
    (es : List HistoryEntry) :
    ∃ rows : List HistoryItem,
      (renderQuizHistory s (some (e :: es))).history = HistoryView.items rows ∧
      rows.length = (e :: es).length ∧
      rows.map HistoryItem.quizId = (e :: es).map HistoryEntry.quiz_id ∧
      ∀ (k : Nat) (entry : HistoryEntry), (e :: es)[k]? = some entry →
        ∃ row : HistoryItem, rows[k]? = some row ∧ row.title = historyTitle entry.prompt ∧
          row.quizId = entry.quiz_id ∧
          ∀ (page : App) (resp : DetailResponse),
            Effect.request (Request.quizDetail entry.quiz_id)
              ∈ (loadPastQuiz page row.quizId resp).effects := by
  refine ⟨(e :: es).map fun (q : HistoryEntry) =>
      ({ title := historyTitle q.prompt, quizId := q.quiz_id } : HistoryItem),
    rfl, by simp, by simp, ?_⟩
  intro k entry hk
  refine ⟨{ title := historyTitle entry.prompt, quizId := entry.quiz_id }, ?_, rfl, rfl, ?_⟩
  · rw [List.getElem?_map, hk]
    rfl
  · intro page resp
    cases resp <;> simp [loadPastQuiz, displayQuizWithAnswers, App.emit]

theorem C16_history_rows_in_store_order_witness :
    ∃ rows : List HistoryItem,
      (renderQuizHistory withHistory
        (some ({ quiz_id := 3, prompt := "sums", is_complete := false, score := 0,
                 total_questions := 1 } ::
               [{ quiz_id := 5, prompt := "rivers", is_complete := true, score := 1,
                  total_questions := 1 }]))).history = HistoryView.items rows ∧
      rows.map HistoryItem.quizId = [3, 5] := by
  obtain ⟨rows, h1, _, h3, _⟩ := C16_history_rows_in_store_order withHistory
    { quiz_id := 3, prompt := "sums", is_complete := false, score := 0, total_questions := 1 }
    [{ quiz_id := 5, prompt := "rivers", is_complete := true, score := 1,
       total_questions := 1 }]
  exact ⟨rows, h1, h3⟩

/-! ## An empty question set -/

/-- C17 as stated fails: the generate handler hands an empty question array
to `displayQuiz`, which builds a session with an empty ledger, shows the
results section and reports no error. -/
theorem C17_empty_quiz_is_displayed :
    (generateClick App.init "sums" (GenerateResponse.ok []) SaveResponse.failed).session
      = some ([], { answers := [], answered := [] }) ∧
    (generateClick App.init "sums" (GenerateResponse.ok [])
      SaveResponse.failed).resultsVisible = true ∧
    (generateClick App.init "sums" (GenerateResponse.ok [])
      SaveResponse.failed).effects.countP Effect.isError = 0 ∧
    (generateClick App.init "sums" (GenerateResponse.ok []) SaveResponse.failed).effects.getLast?
      = some (Effect.displayQuiz []) := by
  refine ⟨by decide, by decide, by decide, by decide⟩

/-- C17, amended. Starting a session with an empty question set does not
fail: `displayQuiz` accepts an empty questions array and builds a session
with an empty ledger and no question card, shows the results section and
reports no error. -/
theorem C17_empty_quiz_builds_empty_session (s : App) :
    (s.displayQuiz []).session = some ([], { answers := [], answered := [] }) ∧
    (s.displayQuiz []).container = [] ∧
    (s.displayQuiz []).resultsVisible = true ∧
    (s.displayQuiz []).effects = s.effects ++ [Effect.displayQuiz []] := by
  refine ⟨rfl, rfl, rfl, rfl⟩

/-! ## The length of the ledger -/

/-- C18. In `displayQuiz` the array `answers` is created all `null` with one
entry per question, and for every sequence of option clicks its length is the
number of questions before and after every click. -/
theorem C18_ledger_length_is_question_count (dom : Browser)
    (quiz : List Question) (cs : List (Nat × Nat)) (q i : Nat) :
    (displayQuiz quiz).answers = List.replicate quiz.length none ∧
    (runClicks dom quiz (displayQuiz quiz) cs).answers.length = quiz.length ∧
    (clickOption dom quiz (runClicks dom quiz (displayQuiz quiz) cs) q i).1.answers.length
      = quiz.length := by
  have hinv := inv_runClicks dom quiz cs _ (inv_displayQuiz quiz)
  exact ⟨rfl, hinv.1, (inv_clickOption dom quiz _ q i hinv).1⟩

/-! ## A response that arrives after a logout -/

/-- C19 as stated fails: a refresh is under way when the user logs out; its
profile response, which carries the identity from before the logout, arrives
afterwards and is applied, so `currentUser` holds that identity again and the
user controls are shown; and its history response, arriving after the logout
and after the 401 of the next profile check, puts the old entries back in the
history list. -/
theorem C19_late_response_is_applied :
    (logoutUser refreshPending (Settled.resolved true)).currentUser = none ∧
    lateProfile.currentUser = some sampleUser ∧
    lateProfile.loggedInUI = true ∧
    (refreshOnProfile
      (logoutUser (refreshOnProfile refreshPending (ProfileResponse.ok sampleUser))
        (Settled.resolved true))
      ProfileResponse.unauthorized).history = HistoryView.signInPrompt ∧
    lateHistory.history = HistoryView.items sampleRows := by
  refine ⟨by decide, by decide, by decide, by decide, by decide⟩

/-- C19, amended. `refreshSessionAndHistory` applies each response when it
arrives, without comparing it with the identity state of that moment: a 2xx
profile response that arrives after a logout sets `currentUser` to the user it
carries and shows the user controls, and a 2xx history response with entries
that arrives after a logout, also after the 401 of a later profile check,
replaces the history list by the rows of those entries. -/
theorem C19_responses_applied_on_arrival (s : App) (ok : Bool) (user : User)
    (e : HistoryEntry) (es : List HistoryEntry) :
    (refreshOnProfile (logoutUser s (Settled.resolved ok))
      (ProfileResponse.ok user)).currentUser = some user ∧
    (refreshOnProfile (logoutUser s (Settled.resolved ok))
      (ProfileResponse.ok user)).loggedInUI = true ∧
    (refreshOnHistory (logoutUser s (Settled.resolved ok))
      (HistoryResponse.ok (some (e :: es)))).history
        = HistoryView.items ((e :: es).map fun (q : HistoryEntry) =>
            ({ title := historyTitle q.prompt, quizId := q.quiz_id } : HistoryItem)) ∧
    (refreshOnHistory
      (refreshOnProfile (logoutUser s (Settled.resolved ok)) ProfileResponse.unauthorized)
      (HistoryResponse.ok (some (e :: es)))).history
        = HistoryView.items ((e :: es).map fun (q : HistoryEntry) =>
            ({ title := historyTitle q.prompt, quizId := q.quiz_id } : HistoryItem)) := by
  refine ⟨rfl, rfl, rfl, rfl⟩

/-! ## A question without options -/

/-- The entry of a question without option buttons stays `null`. -/
theorem clickOption_keeps_null (dom : Browser) (quiz : List Question)
    (st : QuizState) (q r i : Nat) (item : Question) (hq : quiz[q]? = some item)
    (hb : buttonsOf item = []) (h : st.answers[q]? = some none) :
    (clickOption dom quiz st r i).1.answers[q]? = some none := by
  rcases clickOption_cases dom quiz st r i with
    h0 | ⟨item2, option, hr, hi, _, h1, _⟩ | ⟨_, _, h2⟩
  · rw [h0]; exact h
  · rw [h1]
    have hne : r ≠ q := by
      intro e
      subst e
      rw [hq] at hr
      cases hr
      rw [hb] at hi
      simp at hi
    simp only [List.getElem?_set, hne, if_false]
    exact h
  · rw [h2]; exact h

theorem runClicks_keeps_null (dom : Browser) (quiz : List Question)
    (q : Nat) (item : Question) (hq : quiz[q]? = some item) (hb : buttonsOf item = [])
    (cs : List (Nat × Nat)) : ∀ (st : QuizState), st.answers[q]? = some none →
    (runClicks dom quiz st cs).answers[q]? = some none := by
  induction cs with
  | nil => intro st h; exact h
  | cons c cs ih =>
    intro st h
    exact ih _ (clickOption_keeps_null dom quiz st q c.1 c.2 item hq hb h)

/-- With a `null` entry that no click can set, no click makes the call. -/
theorem summaryCalls_none_of_null (dom : Browser) (quiz : List Question)
    (q : Nat) (item : Question) (hq : quiz[q]? = some item) (hb : buttonsOf item = [])
    (cs : List (Nat × Nat)) : ∀ (st : QuizState), st.answers[q]? = some none →
    ∀ c ∈ summaryCalls dom quiz st cs, c = none := by
  induction cs with
  | nil => intro st _ c hc; simp [summaryCalls] at hc
  | cons a cs ih =>
    intro st h c hc
    have hnext := clickOption_keeps_null dom quiz st q a.1 a.2 item hq hb h
    simp only [summaryCalls, List.mem_cons] at hc
    rcases hc with hc | hc
    · rcases hev : (clickOption dom quiz st a.1 a.2).2 with _ | ⟨x, y⟩
      · rw [hc, hev]
      · exfalso
        obtain ⟨_, _, hall, _⟩ := clickOption_call dom quiz st a.1 a.2 x y hev
        have hmem : (none : Option Mark) ∈ (clickOption dom quiz st a.1 a.2).1.answers :=
          List.getElem?_mem hnext
        exact (allAnswered_iff _).mp hall none hmem rfl
    · exact ih _ hnext c hc

theorem summaryCalls_none_of_empty (dom : Browser) (cs : List (Nat × Nat)) :
    ∀ (st : QuizState), ∀ c ∈ summaryCalls dom [] st cs, c = none := by
  induction cs with
  | nil => intro st c hc; simp [summaryCalls] at hc
  | cons a cs ih =>
    intro st c hc
    simp only [summaryCalls, List.mem_cons] at hc
    rcases hc with hc | hc
    · rw [hc]; simp [clickOption]
    · exact ih _ c hc

/-- Clicks that make no summary call add nothing to the log of the page and
leave the celebration screen as it is. -/
theorem page_run_effects_of_no_calls (dom : Browser) (quiz : List Question)
    (cs : List (Nat × Nat)) : ∀ (s : App) (st : QuizState), s.session = some (quiz, st) →
    (∀ c ∈ summaryCalls dom quiz st cs, c = none) →
    (App.runClicks dom s cs).effects = s.effects ∧
    (App.runClicks dom s cs).celebration = s.celebration := by
  induction cs with
  | nil => intro s st _ _; exact ⟨rfl, rfl⟩
  | cons a cs ih =>
    intro s st hs hnone
    have h0 : (clickOption dom quiz st a.1 a.2).2 = none :=
      hnone _ (by simp [summaryCalls])
    have hstep := (page_click_effects dom s quiz st a.1 a.2 hs).1 h0
    have hcel : (s.clickOption dom a.1 a.2).celebration = s.celebration := by
      simp [App.clickOption, hs, h0]
    have hs2 := page_click_session dom s quiz st a.1 a.2 hs
    obtain ⟨ih1, ih2⟩ := ih _ _ hs2 (fun c hc => hnone c (by simp [summaryCalls, hc]))
    simp only [App.runClicks]
    exact ⟨ih1.trans hstep, ih2.trans hcel⟩

/-- C20. In `displayQuiz`, if the quiz is empty or a question has an absent or
empty options list, then for every sequence of option clicks no click calls
`showResultSummary`: the entry of such a question stays `null`, and on the
page the clicks add nothing to the log, so neither the summary nor the
celebration nor the save-attempt request is triggered. -/
theorem C20_no_completion_without_options (dom : Browser)
    (quiz : List Question) (cs : List (Nat × Nat)) (s : App)
    (h : quiz = [] ∨ ∃ (q : Nat) (item : Question), quiz[q]? = some item ∧
      (item.options = none ∨ item.options = some [])) :
    (∀ c ∈ summaryCalls dom quiz (displayQuiz quiz) cs, c = none) ∧
    callCount (summaryCalls dom quiz (displayQuiz quiz) cs) = 0 ∧
    (∀ (q : Nat) (item : Question), quiz[q]? = some item →
      (item.options = none ∨ item.options = some []) →
      (runClicks dom quiz (displayQuiz quiz) cs).answers[q]? = some none) ∧
    (App.runClicks dom (s.displayQuiz quiz) cs).effects = (s.displayQuiz quiz).effects ∧
    (App.runClicks dom (s.displayQuiz quiz) cs).celebration
      = (s.displayQuiz quiz).celebration := by
  have hbuttons : ∀ item : Question, (item.options = none ∨ item.options = some []) →
      buttonsOf item = [] := by
    intro item ho
    rcases ho with ho | ho <;> simp [buttonsOf, ho]
  have hinit : ∀ (q : Nat) (item : Question), quiz[q]? = some item →
      (displayQuiz quiz).answers[q]? = some none := by
    intro q item hq
    have hlt : q < quiz.length := (List.getElem?_eq_some_iff.mp hq).1
    simp [displayQuiz, List.getElem?_replicate, hlt]
  have hnone : ∀ c ∈ summaryCalls dom quiz (displayQuiz quiz) cs, c = none := by
    rcases h with hnil | ⟨q, item, hq, ho⟩
    · subst hnil
      exact summaryCalls_none_of_empty dom cs _
    · exact summaryCalls_none_of_null dom quiz q item hq (hbuttons item ho) cs _
        (hinit q item hq)
  refine ⟨hnone, ?_, ?_, ?_, ?_⟩
  · simp only [callCount, List.countP_eq_zero]
    intro c hc
    rw [hnone c hc]
    simp
  · intro q item hq ho
    exact runClicks_keeps_null dom quiz q item hq (hbuttons item ho) cs _ (hinit q item hq)
  · exact (page_run_effects_of_no_calls dom quiz cs _ _ rfl hnone).1
  · exact (page_run_effects_of_no_calls dom quiz cs _ _ rfl hnone).2

theorem C20_no_completion_without_options_witness :
    sampleQuizOpen[1]? = some openQuestion ∧ openQuestion.options = none ∧
    callCount (summaryCalls plainBrowser sampleQuizOpen (displayQuiz sampleQuizOpen)
      [(0, 0), (1, 0), (0, 1)]) = 0 :=
  ⟨by decide, by decide,
   (C20_no_completion_without_options plainBrowser sampleQuizOpen [(0, 0), (1, 0), (0, 1)]
      App.init (Or.inr ⟨1, openQuestion, by decide, Or.inl rfl⟩)).2.1⟩

/-! ## The arguments of the completion summary -/

theorem correctCount_le_length (answers : List (Option Mark)) :
    correctCount answers ≤ answers.length := by
  unfold correctCount
  exact List.length_filter_le _ _

/-- A call made by the handler has a question behind it. -/
theorem clickOption_call_pos (dom : Browser) (quiz : List Question)
    (st : QuizState) (q i : Nat) (ct : Nat × Nat)
    (h : (clickOption dom quiz st q i).2 = some ct) : 1 ≤ quiz.length := by
  rcases clickOption_cases dom quiz st q i with
    h0 | ⟨item, option, hq, _, _, _, _⟩ | ⟨_, _, h2⟩
  · rw [h0] at h; simp at h
  · have := (List.getElem?_eq_some_iff.mp hq).1
    omega
  · rw [h2] at h; simp at h

theorem one_rounds_to_hundred : roundDouble (roundDouble 1 * 100) = 100 := by
  decide!

/-- The percentage of a score that does not exceed a total of at least one is
a finite number between 0 and 100. -/
theorem percentage_in_range (score total : Nat) (ht : 1 ≤ total) (hs : score ≤ total) :
    ∃ v, percentage score total = JsNum.finite v ∧ 0 ≤ v ∧ v ≤ 100 := by
  refine ⟨_, percentage_of_pos score total ht, roundDouble_nonneg _, ?_⟩
  have htq : (0 : ℚ) < (total : ℚ) := by exact_mod_cast ht
  have h1 : (score : ℚ) / (total : ℚ) ≤ 1 := by
    rw [div_le_one htq]
    exact_mod_cast hs
  have h2 : roundDouble ((score : ℚ) / (total : ℚ)) * 100 ≤ roundDouble 1 * 100 :=
    mul_le_mul_of_nonneg_right (roundDouble_mono h1) (by norm_num)
  calc roundDouble (roundDouble ((score : ℚ) / (total : ℚ)) * 100)
      ≤ roundDouble (roundDouble 1 * 100) := roundDouble_mono h2
    _ = 100 := one_rounds_to_hundred

/-- C21. Whenever a click in `displayQuiz` calls `showResultSummary(correct,
total)`, `total` is at least 1 and `correct` lies between 0 and `total`, so
the division in `showCelebrationScreen` has a non-zero denominator and the
percentage is a finite number between 0 and 100. -/
theorem C21_summary_arguments_in_range (dom : Browser)
    (quiz : List Question) (cs : List (Nat × Nat)) (k correct total : Nat)
    (h : (summaryCalls dom quiz (displayQuiz quiz) cs)[k]? = some (some (correct, total))) :
    1 ≤ total ∧ 0 ≤ correct ∧ correct ≤ total ∧
    ∃ v, percentage correct total = JsNum.finite v ∧ 0 ≤ v ∧ v ≤ 100 := by
  rw [summaryCalls_getElem?] at h
  rcases hc : cs[k]? with _ | click
  · rw [hc] at h; simp at h
  · rw [hc] at h
    simp only [Option.map_some', Option.some.injEq] at h
    have hinv := inv_runClicks dom quiz (cs.take k) _ (inv_displayQuiz quiz)
    have hinv2 := inv_clickOption dom quiz _ click.1 click.2 hinv
    obtain ⟨h1, h2, _, _⟩ := clickOption_call dom quiz _ _ _ correct total h
    have hpos := clickOption_call_pos dom quiz _ _ _ _ h
    have ht : total = quiz.length := h2.trans hinv2.1
    have hle : correct ≤ total := by
      rw [h1, h2]
      exact correctCount_le_length _
    have ht1 : 1 ≤ total := by omega
    exact ⟨ht1, Nat.zero_le _, hle, percentage_in_range correct total ht1 hle⟩

theorem C21_summary_arguments_in_range_witness :
    (summaryCalls plainBrowser sampleQuiz5 (displayQuiz sampleQuiz5) sampleClicks5)[4]?
        = some (some (4, 5)) ∧
    (1 ≤ 5 ∧ 0 ≤ 4 ∧ 4 ≤ 5 ∧ ∃ v, percentage 4 5 = JsNum.finite v ∧ 0 ≤ v ∧ v ≤ 100) :=
  ⟨by decide,
   C21_summary_arguments_in_range plainBrowser sampleQuiz5 sampleClicks5 4 4 5 (by decide)⟩

/-! ## The title of a history row -/

theorem sliceTitle_short (units : List Nat) (h : units.length ≤ 60) :
    sliceTitle units = units := by
  unfold sliceTitle
  rw [if_neg (by omega)]

theorem sliceTitle_long (units : List Nat) (h : 60 < units.length) :
    sliceTitle units = units.take 57 ++ jsString "..." := by
  unfold sliceTitle
  rw [if_pos h]

theorem jsString_ellipsis : jsString "..." = [46, 46, 46] := by
  decide

theorem sliceTitle_length (units : List Nat) : (sliceTitle units).length ≤ 60 := by
  by_cases h : 60 < units.length
  · rw [sliceTitle_long units h, jsString_ellipsis]
    simp only [List.length_append, List.length_take, List.length_cons, List.length_nil]
    omega
  · rw [sliceTitle_short units (by omega)]
    omega

/-- A string free of `<`, `&`, carriage return and U+0000 is its own text. -/
theorem htmlText_plain (units : List Nat)
    (h : ∀ u ∈ units, u ≠ 60 ∧ u ≠ 38 ∧ u ≠ 13 ∧ u ≠ 0) : htmlText units = some units := by
  induction units with
  | nil => rfl
  | cons c rest ih =>
    have hc := h c (List.mem_cons_self c rest)
    have hrest := ih fun u hu => h u (List.mem_cons_of_mem c hu)
    unfold htmlText
    rw [if_neg hc.2.1, if_neg (by simp [hc.1, hc.2.2.1, hc.2.2.2]), hrest]
    rfl

/-- C22 as stated fails: the prompt `Tom &amp; Jerry` has fewer than 60
characters, the string written as the title of its row is the prompt, and the
row, which is built through `innerHTML`, shows `Tom & Jerry`, which is not the
prompt. -/
theorem C22_title_is_parsed_as_markup :
    (jsString markupEntry.prompt).length ≤ 60 ∧
    (renderQuizHistory App.init (some [markupEntry])).history
      = HistoryView.items [{ title := jsString "Tom &amp; Jerry", quizId := 4 }] ∧
    HistoryItem.shownTitle { title := jsString "Tom &amp; Jerry", quizId := 4 }
      = some (jsString "Tom & Jerry") ∧
    jsString "Tom & Jerry" ≠ jsString markupEntry.prompt := by
  refine ⟨by decide, by decide, by decide, by decide⟩

/-- C22, amended. For every history entry the string `renderQuizHistory`
writes as the title is the prompt itself when the prompt has at most 60
characters, and otherwise the first 57 characters of the prompt followed by
`...`, a character being a UTF-16 code unit as `length` and `slice` count
them; in every case that string has at most 60 characters and is a prefix of
the prompt, apart from the trailing ellipsis when there is one.  The string is
written as HTML: the row shows it unchanged when it holds no `<`, no `&`, no
carriage return and no U+0000. -/
theorem C22_history_title_written_then_parsed (s : App) (e : HistoryEntry)
    (es : List HistoryEntry) :
    ((jsString e.prompt).length ≤ 60 → historyTitle e.prompt = jsString e.prompt) ∧
    (60 < (jsString e.prompt).length →
      historyTitle e.prompt = (jsString e.prompt).take 57 ++ jsString "...") ∧
    (historyTitle e.prompt).length ≤ 60 ∧
    (historyTitle e.prompt <+: jsString e.prompt ∨
      ∃ start, start <+: jsString e.prompt ∧ start.length = 57 ∧
        historyTitle e.prompt = start ++ jsString "...") ∧
    (∃ rows : List HistoryItem,
      (renderQuizHistory s (some (e :: es))).history = HistoryView.items rows ∧
      rows.map HistoryItem.title
        = ((e :: es).map fun (q : HistoryEntry) => historyTitle q.prompt) ∧
      ∀ row ∈ rows, (∀ u ∈ row.title, u ≠ 60 ∧ u ≠ 38 ∧ u ≠ 13 ∧ u ≠ 0) →
        row.shownTitle = some row.title) := by
  refine ⟨sliceTitle_short _, sliceTitle_long _, sliceTitle_length _, ?_, ?_⟩
  · by_cases h : 60 < (jsString e.prompt).length
    · right
      refine ⟨(jsString e.prompt).take 57, ⟨(jsString e.prompt).drop 57, ?_⟩, ?_,
        sliceTitle_long _ h⟩
      · exact List.take_append_drop 57 _
      · rw [List.length_take]
        omega
    · left
      unfold historyTitle
      rw [sliceTitle_short _ (by omega)]
  · refine ⟨(e :: es).map fun (q : HistoryEntry) =>
      ({ title := historyTitle q.prompt, quizId := q.quiz_id } : HistoryItem), rfl, ?_, ?_⟩
    · rw [List.map_map]
      rfl
    · intro row _ hplain
      exact htmlText_plain row.title hplain

theorem C22_history_title_written_then_parsed_witness :
    (jsString longEntry.prompt).length = 61 ∧ 60 < (jsString longEntry.prompt).length ∧
    historyTitle longEntry.prompt = List.replicate 57 97 ++ [46, 46, 46] :=
  ⟨by decide, by decide,
   ((C22_history_title_written_then_parsed App.init longEntry []).2.1 (by decide)).trans
      (by decide)⟩

end Askify
